import Mathlib

/-!
# The PICO sample host (`rnt/sample/sample.c`)

A shallow embedding of the reference host of the PICO object detector:
`process_image` (pyramid driver, clustering switch, confidence filter) and
the parts of `main` that load the cascade and parse the command line.

Conventions of the embedding.

* C `int` values are `Int`; `x >> i` is the arithmetic shift `x >>> i`.  The
  one place where a wider value is narrowed (`size = ftell(file)`) wraps
  explicitly.
* C `float` is an abstract type `F` with the handful of operations the host
  uses collected in `FloatOps F`; every theorem holds for any such `F`.
* The library functions `find_objects` and `cluster_detections` (declared in
  `picornt.h`) and the OpenCV / libc calls are parameters.
* The detection buffer `float rcsq[4*MAXNDETECTIONS]` is a map from float
  index to value; stores are explicit.
-/

namespace Pico

/-! ## Floats, images and the external functions -/

/-- Operations on C `float` used by the host. -/
structure FloatOps (F : Type) where
  /-- the conversion `int → float` -/
  ofInt : Int → F
  /-- the product of two floats -/
  mul : F → F → F
  /-- the quotient of two floats -/
  div : F → F → F
  /-- the comparison `a >= b` -/
  ge : F → F → Bool
  /-- the conversion `float → int` -/
  toInt : F → Int
  /-- the decimal literal `m · 10^(-e)` written with an `f` suffix -/
  lit : Nat → Nat → F

/-- The fields of an `IplImage` that the host reads. -/
structure IplImage where
  imageData : List Nat
  height : Int
  width : Int
  widthStep : Int
  nChannels : Int
deriving DecidableEq, Repr

/-- One detection `(r, c, s, q)`: four consecutive floats of the buffer. -/
structure Det (F : Type) where
  r : F
  c : F
  s : F
  q : F
deriving DecidableEq, Repr

/-- The argument list of one call of `find_objects`.  The field `rcsq` is the
offset (in floats) of the destination pointer inside the host buffer. -/
structure FOCall (F : Type) where
  rcsq : Int
  maxndetections : Int
  cascade : List Nat
  angle : F
  pixels : List Nat
  nrows : Int
  ncols : Int
  ldim : Int
  scalefactor : F
  stridefactor : F
  minsize : Int
  maxsize : Int
deriving DecidableEq, Repr

/-- The external functions `process_image` calls.

* `find_objects call` is the list of detections the scanner stores, four
  floats each, at the start of the destination; its length is the returned
  count.
* `cluster_detections rcsq n` is the buffer after clustering in place and the
  returned count.
* `cvCvtColor`, `cvCopy` give the contents of `gray`; `cvResize i src` gives
  the contents of `pyr[i]` after `cvResize(src, pyr[i], CV_INTER_LINEAR)`. -/
structure Library (F : Type) where
  find_objects : FOCall F → List (Det F)
  cluster_detections : (Int → F) → Int → (Int → F) × Int
  cvCvtColor : IplImage → IplImage
  cvCopy : IplImage → IplImage
  cvResize : Nat → IplImage → IplImage

/-- The process-wide variables of `sample.c`. -/
structure Globals (F : Type) where
  cascade : List Nat
  minsize : Int
  maxsize : Int
  angle : F
  scalefactor : F
  stridefactor : F
  qthreshold : F
  usepyr : Int
  noclustering : Int
  verbose : Int
deriving DecidableEq, Repr

/-! ## `process_image` -/

/-- The constant `#define MAXNDETECTIONS 2048`. -/
def MAXNDETECTIONS : Int := 2048

/-- OpenCV macro `MAX(a,b) = ((a) < (b) ? (b) : (a))`. -/
def MAX (a b : Int) : Int := if a < b then b else a

/-- OpenCV macro `MIN(a,b) = ((a) > (b) ? (b) : (a))`. -/
def MIN (a b : Int) : Int := if a > b then b else a

/-- The assignment `rcsq[idx] = v`. -/
def store {F : Type} (rcsq : Int → F) (idx : Int) (v : F) : Int → F :=
  fun k => if k = idx then v else rcsq k

/-- Modelled from the spec: the body of `find_objects` is not part of
`sample.c`.  Its output layout is four floats per detection in the order
`r, c, s, q`, from the start of the destination: detection number `k` of the
returned list occupies the floats `off + 4k .. off + 4k + 3`. -/
def write_dets {F : Type} : (Int → F) → Int → List (Det F) → (Int → F)
  | rcsq, _, [] => rcsq
  | rcsq, off, d :: ds =>
    write_dets
      (store (store (store (store rcsq off d.r) (off + 1) d.c) (off + 2) d.s) (off + 3) d.q)
      (off + 4) ds

/-- Body of the rescaling loop at pyramid level `i` for index `j`. -/
def rescale_body {F : Type} (ops : FloatOps F) (i : Nat) (j : Int) (rcsq : Int → F) : Int → F :=
  let rcsq := store rcsq (4 * j + 0) (ops.mul (ops.ofInt ((1 <<< i : Nat) : Int)) (rcsq (4 * j + 0)))
  let rcsq := store rcsq (4 * j + 1) (ops.mul (ops.ofInt ((1 <<< i : Nat) : Int)) (rcsq (4 * j + 1)))
  let rcsq := store rcsq (4 * j + 2) (ops.mul (ops.ofInt ((1 <<< i : Nat) : Int)) (rcsq (4 * j + 2)))
  rcsq

/-- The loop `for(j=ndetections; j<ndetections+nd; ++j)`; the first argument
counts the iterations still to run, `ndetections + nd - j`. -/
def rescale {F : Type} (ops : FloatOps F) (i : Nat) : Nat → Int → (Int → F) → (Int → F)
  | 0, _, rcsq => rcsq
  | n + 1, j, rcsq => rescale ops i n (j + 1) (rescale_body ops i j rcsq)

/-- The state of the detection stage: the calls of `find_objects` made so far,
the buffer, the running count and the pyramid images. -/
structure Scan (F : Type) where
  calls : List (FOCall F)
  rcsq : Int → F
  ndetections : Int
  pyr : Nat → IplImage

/-- The assignment of image `im` to slot `i` of `pyr`. -/
def set_pyr (pyr : Nat → IplImage) (i : Nat) (im : IplImage) : Nat → IplImage :=
  fun k => if k = i then im else pyr k

/-- Level 0 of the pyramid branch (lines 132-139). -/
def pyr_level0 {F : Type} (ext : Library F) (g : Globals F) (gray : IplImage)
    (pyr0 : Nat → IplImage) (rcsq0 : Int → F) : Scan F :=
  let pyr := set_pyr pyr0 0 gray
  let call : FOCall F :=
    { rcsq := 0, maxndetections := MAXNDETECTIONS, cascade := g.cascade, angle := g.angle,
      pixels := (pyr 0).imageData, nrows := (pyr 0).height, ncols := (pyr 0).width,
      ldim := (pyr 0).widthStep, scalefactor := g.scalefactor, stridefactor := g.stridefactor,
      minsize := MAX 16 g.minsize, maxsize := MIN 128 g.maxsize }
  let dets := ext.find_objects call
  { calls := [call], rcsq := write_dets rcsq0 0 dets, ndetections := (dets.length : Int),
    pyr := pyr }

/-- Body of the loop `for(i=1; i<5; ++i)` (lines 143-159). -/
def pyr_body {F : Type} (ops : FloatOps F) (ext : Library F) (g : Globals F)
    (st : Scan F) (i : Nat) : Scan F :=
  let pyr := set_pyr st.pyr i (ext.cvResize i (st.pyr (i - 1)))
  let call : FOCall F :=
    { rcsq := 4 * st.ndetections, maxndetections := MAXNDETECTIONS - st.ndetections,
      cascade := g.cascade, angle := g.angle,
      pixels := (pyr i).imageData, nrows := (pyr i).height, ncols := (pyr i).width,
      ldim := (pyr i).widthStep, scalefactor := g.scalefactor, stridefactor := g.stridefactor,
      minsize := MAX 64 (g.minsize >>> i), maxsize := MIN 128 (g.maxsize >>> i) }
  let dets := ext.find_objects call
  let nd : Int := (dets.length : Int)
  let rcsq := write_dets st.rcsq (4 * st.ndetections) dets
  let rcsq := rescale ops i (st.ndetections + nd - st.ndetections).toNat st.ndetections rcsq
  { calls := st.calls ++ [call], rcsq := rcsq, ndetections := st.ndetections + nd, pyr := pyr }

/-- The pyramid branch run up to and including level `n` (`n ≤ 4`): level 0,
then the loop body for `i = 1, …, n`. -/
def pyr_upto {F : Type} (ops : FloatOps F) (ext : Library F) (g : Globals F) (gray : IplImage)
    (pyr0 : Nat → IplImage) (rcsq0 : Int → F) (n : Nat) : Scan F :=
  (List.range' 1 n).foldl (pyr_body ops ext g) (pyr_level0 ext g gray pyr0 rcsq0)

/-- The non-pyramid branch (lines 165-171). -/
def single_scan {F : Type} (ext : Library F) (g : Globals F) (gray : IplImage)
    (pyr0 : Nat → IplImage) (rcsq0 : Int → F) : Scan F :=
  let call : FOCall F :=
    { rcsq := 0, maxndetections := MAXNDETECTIONS, cascade := g.cascade, angle := g.angle,
      pixels := gray.imageData, nrows := gray.height, ncols := gray.width,
      ldim := gray.widthStep, scalefactor := g.scalefactor, stridefactor := g.stridefactor,
      minsize := g.minsize, maxsize := MIN gray.height gray.width }
  let dets := ext.find_objects call
  { calls := [call], rcsq := write_dets rcsq0 0 dets, ndetections := (dets.length : Int),
    pyr := pyr0 }

/-- The grayscale image of the frame (lines 119-122). -/
def to_gray {F : Type} (ext : Library F) (frame : IplImage) : IplImage :=
  if frame.nChannels = 3 then ext.cvCvtColor frame else ext.cvCopy frame

/-- The detection stage `if(usepyr) … else …` (lines 127-172); the loop
`for(i=1; i<5; ++i)` runs the body for `i = 1, 2, 3, 4`. -/
def detect {F : Type} (ops : FloatOps F) (ext : Library F) (g : Globals F) (frame : IplImage)
    (pyr0 : Nat → IplImage) (rcsq0 : Int → F) : Scan F :=
  let gray := to_gray ext frame
  if g.usepyr ≠ 0 then
    [1, 2, 3, 4].foldl (pyr_body ops ext g) (pyr_level0 ext g gray pyr0 rcsq0)
  else
    single_scan ext g gray pyr0 rcsq0

/-- The buffer and count after `if(!noclustering) ndetections =
cluster_detections(rcsq, ndetections);` together with the arguments of the
calls of `cluster_detections` that were made. -/
structure Clustered (F : Type) where
  cluster_calls : List ((Int → F) × Int)
  rcsq : Int → F
  ndetections : Int

/-- The clustering step (lines 174-175). -/
def cluster_stage {F : Type} (ext : Library F) (g : Globals F) (rcsq : Int → F)
    (ndetections : Int) : Clustered F :=
  if g.noclustering = 0 then
    { cluster_calls := [(rcsq, ndetections)],
      rcsq := (ext.cluster_detections rcsq ndetections).1,
      ndetections := (ext.cluster_detections rcsq ndetections).2 }
  else
    { cluster_calls := [], rcsq := rcsq, ndetections := ndetections }

/-- The arguments of one `cvCircle` call: centre `(x, y)` and radius. -/
structure Circle where
  x : Int
  y : Int
  radius : Int
deriving DecidableEq, Repr

/-- The arguments of one `printf("%d %d %d %f\n", …)` call. -/
structure Line (F : Type) where
  r : Int
  c : Int
  s : Int
  q : F
deriving DecidableEq, Repr

/-- The circle drawn for entry `i`:
`cvCircle(frame, cvPoint(rcsq[4*i+1], rcsq[4*i+0]), rcsq[4*i+2]/2, …)`. -/
def circle_of {F : Type} (ops : FloatOps F) (rcsq : Int → F) (i : Int) : Circle :=
  { x := ops.toInt (rcsq (4 * i + 1)), y := ops.toInt (rcsq (4 * i + 0)),
    radius := ops.toInt (ops.div (rcsq (4 * i + 2)) (ops.ofInt 2)) }

/-- The line printed for entry `i`. -/
def line_of {F : Type} (ops : FloatOps F) (rcsq : Int → F) (i : Int) : Line F :=
  { r := ops.toInt (rcsq (4 * i + 0)), c := ops.toInt (rcsq (4 * i + 1)),
    s := ops.toInt (rcsq (4 * i + 2)), q := rcsq (4 * i + 3) }

/-- The loop `for(i=0; i<ndetections; ++i) if(rcsq[4*i+3]>=qthreshold) cvCircle(…)`;
the first argument counts the iterations still to run, the last collects the
calls made so far. -/
def draw_loop {F : Type} (ops : FloatOps F) (rcsq : Int → F) (qthreshold : F) :
    Nat → Int → List Circle → List Circle
  | 0, _, acc => acc
  | n + 1, i, acc =>
    draw_loop ops rcsq qthreshold n (i + 1)
      (if ops.ge (rcsq (4 * i + 3)) qthreshold then acc ++ [circle_of ops rcsq i] else acc)

/-- The loop `for(i=0; i<ndetections; ++i) if(rcsq[4*i+3]>=qthreshold) printf(…)`. -/
def print_loop {F : Type} (ops : FloatOps F) (rcsq : Int → F) (qthreshold : F) :
    Nat → Int → List (Line F) → List (Line F)
  | 0, _, acc => acc
  | n + 1, i, acc =>
    print_loop ops rcsq qthreshold n (i + 1)
      (if ops.ge (rcsq (4 * i + 3)) qthreshold then acc ++ [line_of ops rcsq i] else acc)

/-- What one call of `process_image` does that is visible outside: the calls of
`find_objects` and of `cluster_detections`, the final buffer and count, the
circles drawn and the lines printed. -/
structure Processed (F : Type) where
  calls : List (FOCall F)
  cluster_calls : List ((Int → F) × Int)
  rcsq : Int → F
  ndetections : Int
  drawn : List Circle
  printed : List (Line F)

/-- The function `process_image(frame, draw)`.  `pyr0` and `rcsq0` are the
contents of the static pyramid slots and of the local buffer on entry. -/
def process_image {F : Type} (ops : FloatOps F) (ext : Library F) (g : Globals F)
    (frame : IplImage) (draw : Int) (pyr0 : Nat → IplImage) (rcsq0 : Int → F) : Processed F :=
  let sc := detect ops ext g frame pyr0 rcsq0
  let cl := cluster_stage ext g sc.rcsq sc.ndetections
  { calls := sc.calls, cluster_calls := cl.cluster_calls, rcsq := cl.rcsq,
    ndetections := cl.ndetections,
    drawn := if draw ≠ 0 then draw_loop ops cl.rcsq g.qthreshold cl.ndetections.toNat 0 [] else [],
    printed :=
      if g.verbose ≠ 0 then print_loop ops cl.rcsq g.qthreshold cl.ndetections.toNat 0 [] else [] }

/-! ## `main`: loading the cascade and parsing the command line -/

/-- The operating-system and libc calls `main` makes before detection starts.

* `fopen path` is the content of the file, or `none` when it cannot be opened;
* `malloc n` tells whether the allocation of `n` bytes succeeds;
* `fread bytes n` is the number of bytes delivered when `n` are requested;
* `sscanf_s`, `sscanf_d`, `sscanf_f` are `sscanf` with the formats `%s`, `%d`
  and `%f`: the converted value, or `none` when nothing is converted (the
  destination then keeps its value). -/
structure Sys (F : Type) where
  fopen : String → Option (List Nat)
  malloc : Nat → Bool
  fread : List Nat → Nat → Nat
  sscanf_s : String → Option String
  sscanf_d : String → Option Int
  sscanf_f : String → Option F

/-- The conversion of the `long` result of `ftell` to `int`. -/
def to_int32 (n : Int) : Int := (n + 2 ^ 31) % 2 ^ 32 - 2 ^ 31

/-- The conversion of an `int` to `size_t` (64 bits). -/
def to_size_t (n : Int) : Nat := (n % 2 ^ 64).toNat

/-- The `else` branch of lines 311-338: read the whole file at `path` into a
fresh allocation.  The result is the content of `cascade`, or the exit status. -/
def load_cascade {F : Type} (sys : Sys F) (path : String) : Except Nat (List Nat) :=
  match sys.fopen path with
  | none => .error 1
  | some bytes =>
    let size : Int := to_int32 (bytes.length : Int)
    if sys.malloc (to_size_t size) = false ∨ to_size_t size ≠ sys.fread bytes (to_size_t size) then
      .error 1
    else
      .ok (bytes.take (to_size_t size))

/-- The globals together with the locals `input` and `output` of `main`. -/
structure Setup (F : Type) extends Globals F where
  input : String
  output : String
deriving DecidableEq, Repr

/-- Lines 340-357: the default parameters. -/
def set_defaults {F : Type} (ops : FloatOps F) (cascade : List Nat) : Setup F :=
  { cascade := cascade,
    minsize := 128,
    maxsize := 1024,
    angle := ops.lit 0 1,
    scalefactor := ops.lit 11 1,
    stridefactor := ops.lit 1 1,
    qthreshold := ops.lit 50 1,
    usepyr := 0,
    noclustering := 0,
    verbose := 0,
    input := "",
    output := "" }

/-- How the option loop stops short of a set of parameters: `main` returns
with an exit status, or a `sscanf` with format `%s` writes past the end of
`char input[1024]` or `char output[1024]` (line 268), which leaves the
behaviour of the program undefined. -/
inductive Stop where
  | exit (status : Nat)
  | overrun
deriving DecidableEq, Repr

/-- The call `sscanf(v, "%s", buf)` for one of the 1024-byte buffers `input`,
`output` (lines 375, 389): the content of the buffer after the call, or `none`
when the call writes past its end.  The buffer keeps its content when nothing
is converted; a converted word is stored with its terminating NUL, so it fits
when it has fewer than 1024 bytes. -/
def sscanf_path {F : Type} (sys : Sys F) (v : String) (buf : String) : Option String :=
  match sys.sscanf_s v with
  | none => some buf
  | some w => if w.utf8ByteSize < 1024 then some w else none

/-- The loop `while(arg < argc)` of lines 362-497 on the arguments
`argv[arg], …, argv[argc-1]`: the final parameters, or how the loop stopped. -/
def parse_args {F : Type} (sys : Sys F) : List String → Setup F → Except Stop (Setup F)
  | [], st => .ok st
  | a :: rest, st =>
    if a = "-u" ∨ a = "--usepyr" then
      parse_args sys rest { st with usepyr := 1 }
    else if a = "-i" ∨ a = "--input" then
      match rest with
      | v :: rest' =>
        match sscanf_path sys v st.input with
        | some s => parse_args sys rest' { st with input := s }
        | none => .error .overrun
      | [] => .error (.exit 1)
    else if a = "-o" ∨ a = "--output" then
      match rest with
      | v :: rest' =>
        match sscanf_path sys v st.output with
        | some s => parse_args sys rest' { st with output := s }
        | none => .error .overrun
      | [] => .error (.exit 1)
    else if a = "-m" ∨ a = "--minsize" then
      match rest with
      | v :: rest' => parse_args sys rest' { st with minsize := (sys.sscanf_d v).getD st.minsize }
      | [] => .error (.exit 1)
    else if a = "-M" ∨ a = "--maxsize" then
      match rest with
      | v :: rest' => parse_args sys rest' { st with maxsize := (sys.sscanf_d v).getD st.maxsize }
      | [] => .error (.exit 1)
    else if a = "-a" ∨ a = "--angle" then
      match rest with
      | v :: rest' => parse_args sys rest' { st with angle := (sys.sscanf_f v).getD st.angle }
      | [] => .error (.exit 1)
    else if a = "-c" ∨ a = "--scalefactor" then
      match rest with
      | v :: rest' =>
        parse_args sys rest' { st with scalefactor := (sys.sscanf_f v).getD st.scalefactor }
      | [] => .error (.exit 1)
    else if a = "-t" ∨ a = "--stridefactor" then
      match rest with
      | v :: rest' =>
        parse_args sys rest' { st with stridefactor := (sys.sscanf_f v).getD st.stridefactor }
      | [] => .error (.exit 1)
    else if a = "-q" ∨ a = "--qthreshold" then
      match rest with
      | v :: rest' =>
        parse_args sys rest' { st with qthreshold := (sys.sscanf_f v).getD st.qthreshold }
      | [] => .error (.exit 1)
    else if a = "-n" ∨ a = "--noclustering" then
      parse_args sys rest { st with noclustering := 1 }
    else if a = "-v" ∨ a = "--verbose" then
      parse_args sys rest { st with verbose := 1 }
    else
      .error (.exit 1)

/-- How `main` leaves its first part: it returns with an exit status, it goes
on to detection with the parameters set, or a path buffer has been overrun and
its behaviour is undefined. -/
inductive Outcome (F : Type) where
  | exit (status : Nat)
  | run (st : Setup F)
  | overrun

/-- The function `main` up to the end of the option loop (lines 264-497);
`argv` holds the `argc` strings of the command line. -/
def main_setup {F : Type} (ops : FloatOps F) (sys : Sys F) (argv : List String) : Outcome F :=
  match argv with
  | [] => .exit 0
  | [_] => .exit 0
  | _ :: path :: args =>
    if path = "-h" ∨ path = "--help" then .exit 0
    else
      match load_cascade sys path with
      | .error status => .exit status
      | .ok cascade =>
        match parse_args sys args (set_defaults ops cascade) with
        | .error (.exit status) => .exit status
        | .error .overrun => .overrun
        | .ok st => .run st

/-! ## Vocabulary of the statements -/

/-- Entry `j` of the buffer: the floats `4j .. 4j+3` read as a detection. -/
def entry {F : Type} (rcsq : Int → F) (j : Int) : Det F :=
  { r := rcsq (4 * j + 0), c := rcsq (4 * j + 1), s := rcsq (4 * j + 2), q := rcsq (4 * j + 3) }

/-- The first `n` entries of the buffer, in order. -/
def entries {F : Type} (rcsq : Int → F) (n : Nat) : List (Det F) :=
  (List.range n).map (fun (j : Nat) => entry rcsq (j : Int))

/-- A detection with row, column and size multiplied by `2^i`. -/
def scale_det {F : Type} (ops : FloatOps F) (i : Nat) (d : Det F) : Det F :=
  { r := ops.mul (ops.ofInt (2 ^ i)) d.r, c := ops.mul (ops.ofInt (2 ^ i)) d.c,
    s := ops.mul (ops.ofInt (2 ^ i)) d.s, q := d.q }

/-- The image of pyramid level `i`: the grayscale frame halved `i` times. -/
def level_image {F : Type} (ext : Library F) (gray : IplImage) : Nat → IplImage
  | 0 => gray
  | i + 1 => ext.cvResize (i + 1) (level_image ext gray i)

/-- The image arguments `(pixels, nrows, ncols, ldim)` of a call. -/
def call_image {F : Type} (c : FOCall F) : List Nat × Int × Int × Int :=
  (c.pixels, c.nrows, c.ncols, c.ldim)

/-- The image arguments the host derives from an `IplImage`. -/
def image_args (im : IplImage) : List Nat × Int × Int × Int :=
  (im.imageData, im.height, im.width, im.widthStep)

/-! ## A concrete instance -/

/-- Exact rational arithmetic as an instance of the float operations. -/
def rat_ops : FloatOps ℚ :=
  { ofInt := fun n => (n : ℚ),
    mul := fun a b => a * b,
    div := fun a b => a / b,
    ge := fun a b => decide (b ≤ a),
    toInt := fun x => if 0 ≤ x then ⌊x⌋ else ⌈x⌉,
    lit := fun m e => (m : ℚ) / 10 ^ e }

/-- A sample library: the scanner reports two detections per call (as far as
the capacity allows), clustering keeps the first entry, resizing halves. -/
def demo_lib : Library ℚ :=
  { find_objects := fun c =>
      ([{ r := 10, c := 20, s := (c.minsize : ℚ), q := 7 },
        { r := 30, c := 40, s := (c.maxsize : ℚ), q := 3 }] : List (Det ℚ)).take
        c.maxndetections.toNat,
    cluster_detections := fun rcsq n => (rcsq, min n 1),
    cvCvtColor := fun im => { im with nChannels := 1 },
    cvCopy := fun im => im,
    cvResize := fun _ im =>
      { im with height := im.height / 2, width := im.width / 2, widthStep := im.widthStep / 2 } }

/-- Sample parameters: the defaults, `-M 200`, and the given switches. -/
def demo_globals (usepyr noclustering : Int) : Globals ℚ :=
  { cascade := [], minsize := 128, maxsize := 200, angle := 0, scalefactor := 11 / 10,
    stridefactor := 1 / 10, qthreshold := 5, usepyr := usepyr, noclustering := noclustering,
    verbose := 1 }

/-- A sample 640x480 single-channel frame. -/
def demo_frame : IplImage :=
  { imageData := [], height := 480, width := 640, widthStep := 640, nChannels := 1 }

/-- Sample initial contents of the pyramid slots. -/
def demo_pyr : Nat → IplImage := fun _ => demo_frame

/-- Sample initial contents of the buffer. -/
def demo_rcsq : Int → ℚ := fun _ => 0

/-- The line printed for a detection. -/
def det_line {F : Type} (ops : FloatOps F) (d : Det F) : Line F :=
  { r := ops.toInt d.r, c := ops.toInt d.c, s := ops.toInt d.s, q := d.q }

/-- The circle drawn for a detection. -/
def det_circle {F : Type} (ops : FloatOps F) (d : Det F) : Circle :=
  { x := ops.toInt d.c, y := ops.toInt d.r, radius := ops.toInt (ops.div d.s (ops.ofInt 2)) }

/-! ## Vocabulary of the statements about `main` -/

/-- A little-endian signed 32-bit integer. -/
def le_int32 (b0 b1 b2 b3 : Nat) : Int :=
  to_int32 ((b0 + 256 * b1 + 65536 * b2 + 16777216 * b3 : Nat) : Int)

/-- The size law of the cascade format: the blob holds the 16-byte header and
its length is `16 + ntrees * (4*(2^tdepth - 1) + 4*2^tdepth + 4)` for the
`tdepth ≥ 0` (offset 8) and `ntrees ≥ 1` (offset 12) of the header. -/
def spec_size_law (blob : List Nat) : Bool :=
  match blob.drop 8 with
  | t0 :: t1 :: t2 :: t3 :: n0 :: n1 :: n2 :: n3 :: _ =>
    decide (0 ≤ le_int32 t0 t1 t2 t3 ∧ 1 ≤ le_int32 n0 n1 n2 n3 ∧
      (blob.length : Int) = 16 + le_int32 n0 n1 n2 n3 *
        (4 * (2 ^ (le_int32 t0 t1 t2 t3).toNat - 1) + 4 * 2 ^ (le_int32 t0 t1 t2 t3).toNat + 4))
  | _ => false

/-- The switches: options that stand alone. -/
def spec_is_flag (a : String) : Bool :=
  (a = "-u" ∨ a = "--usepyr") ∨ (a = "-n" ∨ a = "--noclustering") ∨ (a = "-v" ∨ a = "--verbose")

/-- The options that take a value. -/
def spec_is_value_option (a : String) : Bool :=
  (a = "-i" ∨ a = "--input") ∨ (a = "-o" ∨ a = "--output") ∨ (a = "-m" ∨ a = "--minsize") ∨
  (a = "-M" ∨ a = "--maxsize") ∨ (a = "-a" ∨ a = "--angle") ∨ (a = "-c" ∨ a = "--scalefactor") ∨
  (a = "-t" ∨ a = "--stridefactor") ∨ (a = "-q" ∨ a = "--qthreshold")

/-- The left-to-right scan of the arguments: a switch consumes one argument, an
option with a value two; the scan fails at an argument that is neither, and at
an option with a value that is the last argument. -/
def spec_scan_fails : List String → Bool
  | [] => false
  | a :: rest =>
    if spec_is_flag a then spec_scan_fails rest
    else if spec_is_value_option a then
      match rest with
      | [] => true
      | _ :: rest' => spec_scan_fails rest'
    else true

/-- Every word that `sscanf` with format `%s` converts from one of the
arguments fits a 1024-byte buffer with its terminating NUL. -/
def words_fit {F : Type} (sys : Sys F) (args : List String) : Prop :=
  ∀ v ∈ args, ∀ w : String, sys.sscanf_s v = some w → w.utf8ByteSize < 1024

/-- A path of 1500 letters `a`. -/
def long_word : String := String.mk (List.replicate 1500 'a')

/-- The value of the leading decimal digits of a character list. -/
def leading_digits : List Char → Nat → Nat
  | [], acc => acc
  | c :: cs, acc => if c.isDigit then leading_digits cs (10 * acc + (c.toNat - 48)) else acc

/-- A sample conversion for `%d`: an optional minus sign and decimal digits. -/
def demo_scan_int (s : String) : Option Int :=
  match s.toList with
  | [] => none
  | '-' :: c :: cs => if c.isDigit then some (-(leading_digits (c :: cs) 0 : Nat)) else none
  | c :: cs => if c.isDigit then some (leading_digits (c :: cs) 0 : Nat) else none

/-- A sample system: two cascade files, one of five bytes and one obeying the
size law (`tdepth = 0`, `ntrees = 1`, 24 bytes); allocation and reading succeed;
`sscanf` converts decimal integers and non-empty words. -/
def demo_sys : Sys ℚ :=
  { fopen := fun path =>
      if path = "short.bin" then some [0, 0, 0, 0, 0]
      else if path = "facefinder" then
        some [0, 0, 0, 0, 0, 0, 0, 0, 0, 0, 0, 0, 1, 0, 0, 0, 0, 0, 0, 0, 0, 0, 0, 0]
      else none,
    malloc := fun _ => true,
    fread := fun _ n => n,
    sscanf_s := fun s => if s = "" then none else some s,
    sscanf_d := demo_scan_int,
    sscanf_f := fun s => (demo_scan_int s).map (fun n => (n : ℚ)) }

/-! ## Buffer lemmas -/

theorem MAX_eq_max (a b : Int) : MAX a b = max a b := by
  unfold MAX; split <;> omega

theorem MIN_eq_min (a b : Int) : MIN a b = min a b := by
  unfold MIN; split <;> omega

theorem store_same {F : Type} (rcsq : Int → F) (idx : Int) (v : F) : store rcsq idx v idx = v := by
  simp [store]

theorem store_other {F : Type} (rcsq : Int → F) (idx k : Int) (v : F) (h : k ≠ idx) :
    store rcsq idx v k = rcsq k := by
  simp [store, h]

/-- The store of `find_objects` leaves every float outside its slice alone. -/
theorem write_dets_frame {F : Type} (ds : List (Det F)) :
    ∀ (rcsq : Int → F) (off idx : Int), (idx < off ∨ off + 4 * (ds.length : Int) ≤ idx) →
      write_dets rcsq off ds idx = rcsq idx := by
  induction ds with
  | nil => intro rcsq off idx _; rfl
  | cons d ds ih =>
    intro rcsq off idx h
    simp only [write_dets, List.length_cons, Nat.cast_add, Nat.cast_one] at h ⊢
    rw [ih _ _ _ (by omega)]
    rw [store_other _ _ _ _ (by omega), store_other _ _ _ _ (by omega),
      store_other _ _ _ _ (by omega), store_other _ _ _ _ (by omega)]

/-- Detection `k` of the list is found at floats `off + 4k .. off + 4k + 3`. -/
theorem write_dets_hit {F : Type} (ds : List (Det F)) :
    ∀ (rcsq : Int → F) (off : Int) (k : Nat) (d : Det F), ds[k]? = some d →
      write_dets rcsq off ds (off + 4 * k + 0) = d.r ∧
      write_dets rcsq off ds (off + 4 * k + 1) = d.c ∧
      write_dets rcsq off ds (off + 4 * k + 2) = d.s ∧
      write_dets rcsq off ds (off + 4 * k + 3) = d.q := by
  induction ds with
  | nil => intro rcsq off k d h; simp at h
  | cons e ds ih =>
    intro rcsq off k d h
    cases k with
    | zero =>
      simp only [List.getElem?_cons_zero, Option.some.injEq] at h
      subst h
      simp only [write_dets, Nat.cast_zero, mul_zero, add_zero]
      refine ⟨?_, ?_, ?_, ?_⟩
      · rw [write_dets_frame _ _ _ _ (by omega)]
        rw [store_other _ _ _ _ (by omega), store_other _ _ _ _ (by omega),
          store_other _ _ _ _ (by omega), store_same]
      · rw [write_dets_frame _ _ _ _ (by omega)]
        rw [store_other _ _ _ _ (by omega), store_other _ _ _ _ (by omega), store_same]
      · rw [write_dets_frame _ _ _ _ (by omega)]
        rw [store_other _ _ _ _ (by omega), store_same]
      · rw [write_dets_frame _ _ _ _ (by omega)]
        rw [store_same]
    | succ k =>
      simp only [List.getElem?_cons_succ] at h
      have := ih (store (store (store (store rcsq off e.r) (off + 1) e.c) (off + 2) e.s)
        (off + 3) e.q) (off + 4) k d h
      simp only [write_dets, Nat.cast_add, Nat.cast_one]
      have e0 : off + 4 * ((k : Int) + 1) + 0 = off + 4 + 4 * (k : Int) + 0 := by ring
      have e1 : off + 4 * ((k : Int) + 1) + 1 = off + 4 + 4 * (k : Int) + 1 := by ring
      have e2 : off + 4 * ((k : Int) + 1) + 2 = off + 4 + 4 * (k : Int) + 2 := by ring
      have e3 : off + 4 * ((k : Int) + 1) + 3 = off + 4 + 4 * (k : Int) + 3 := by ring
      rw [e0, e1, e2, e3]
      exact this

/-- One pass of the rescaling body changes only `4j`, `4j+1`, `4j+2`. -/
theorem rescale_body_other {F : Type} (ops : FloatOps F) (i : Nat) (j : Int) (rcsq : Int → F)
    (idx : Int) (h : idx < 4 * j ∨ 4 * j + 3 ≤ idx) :
    rescale_body ops i j rcsq idx = rcsq idx := by
  simp only [rescale_body]
  rw [store_other _ _ _ _ (by omega), store_other _ _ _ _ (by omega),
    store_other _ _ _ _ (by omega)]

theorem rescale_body_hit {F : Type} (ops : FloatOps F) (i : Nat) (j : Int) (rcsq : Int → F) :
    rescale_body ops i j rcsq (4 * j + 0) = ops.mul (ops.ofInt ((1 <<< i : Nat) : Int)) (rcsq (4 * j + 0)) ∧
    rescale_body ops i j rcsq (4 * j + 1) = ops.mul (ops.ofInt ((1 <<< i : Nat) : Int)) (rcsq (4 * j + 1)) ∧
    rescale_body ops i j rcsq (4 * j + 2) = ops.mul (ops.ofInt ((1 <<< i : Nat) : Int)) (rcsq (4 * j + 2)) := by
  simp only [rescale_body]
  refine ⟨?_, ?_, ?_⟩
  · rw [store_other _ _ _ _ (by omega), store_other _ _ _ _ (by omega), store_same]
  · rw [store_other _ _ _ _ (by omega), store_same, store_other _ _ _ _ (by omega)]
  · rw [store_same, store_other _ _ _ _ (by omega), store_other _ _ _ _ (by omega)]

/-- The rescaling loop leaves alone every float below `4j`, every float from
`4(j+n)` on, and every confidence slot `4m + 3`. -/
theorem rescale_frame {F : Type} (ops : FloatOps F) (i : Nat) (n : Nat) :
    ∀ (j : Int) (rcsq : Int → F) (idx : Int),
      (idx < 4 * j ∨ 4 * (j + n) ≤ idx ∨ idx % 4 = 3) →
      rescale ops i n j rcsq idx = rcsq idx := by
  induction n with
  | zero => intro j rcsq idx _; rfl
  | succ n ih =>
    intro j rcsq idx h
    simp only [rescale, Nat.cast_add, Nat.cast_one] at h ⊢
    rw [ih _ _ _ (by omega)]
    exact rescale_body_other ops i j rcsq idx (by omega)

/-- The rescaling loop multiplies the `r`, `c`, `s` slots of the entries
`j, …, j+n-1` by `1 << i`, once. -/
theorem rescale_hit {F : Type} (ops : FloatOps F) (i : Nat) (n : Nat) :
    ∀ (j : Int) (rcsq : Int → F) (k : Nat), k < n →
      rescale ops i n j rcsq (4 * (j + k) + 0)
        = ops.mul (ops.ofInt ((1 <<< i : Nat) : Int)) (rcsq (4 * (j + k) + 0)) ∧
      rescale ops i n j rcsq (4 * (j + k) + 1)
        = ops.mul (ops.ofInt ((1 <<< i : Nat) : Int)) (rcsq (4 * (j + k) + 1)) ∧
      rescale ops i n j rcsq (4 * (j + k) + 2)
        = ops.mul (ops.ofInt ((1 <<< i : Nat) : Int)) (rcsq (4 * (j + k) + 2)) := by
  induction n with
  | zero => intro j rcsq k h; omega
  | succ n ih =>
    intro j rcsq k h
    cases k with
    | zero =>
      simp only [rescale, Nat.cast_zero, add_zero]
      rw [rescale_frame _ _ _ _ _ _ (by omega), rescale_frame _ _ _ _ _ _ (by omega),
        rescale_frame _ _ _ _ _ _ (by omega)]
      simpa using rescale_body_hit ops i j rcsq
    | succ k =>
      have := ih (j + 1) (rescale_body ops i j rcsq) k (by omega)
      simp only [rescale, Nat.cast_add, Nat.cast_one]
      have e : j + ((k : Int) + 1) = j + 1 + (k : Int) := by ring
      rw [e]
      rw [rescale_body_other _ _ _ _ _ (by omega), rescale_body_other _ _ _ _ _ (by omega),
        rescale_body_other _ _ _ _ _ (by omega)] at this
      exact this


/-! ## The pyramid loop, one level at a time -/

theorem pyr_upto_zero {F : Type} (ops : FloatOps F) (ext : Library F) (g : Globals F)
    (gray : IplImage) (pyr0 : Nat → IplImage) (rcsq0 : Int → F) :
    pyr_upto ops ext g gray pyr0 rcsq0 0 = pyr_level0 ext g gray pyr0 rcsq0 := rfl

theorem pyr_upto_succ {F : Type} (ops : FloatOps F) (ext : Library F) (g : Globals F)
    (gray : IplImage) (pyr0 : Nat → IplImage) (rcsq0 : Int → F) (n : Nat) :
    pyr_upto ops ext g gray pyr0 rcsq0 (n + 1)
      = pyr_body ops ext g (pyr_upto ops ext g gray pyr0 rcsq0 n) (n + 1) := by
  simp [pyr_upto, List.range'_1_concat, List.foldl_append, add_comm]

theorem detect_pyr {F : Type} (ops : FloatOps F) (ext : Library F) (g : Globals F)
    (frame : IplImage) (pyr0 : Nat → IplImage) (rcsq0 : Int → F) (h : g.usepyr ≠ 0) :
    detect ops ext g frame pyr0 rcsq0 = pyr_upto ops ext g (to_gray ext frame) pyr0 rcsq0 4 := by
  simp [detect, h, pyr_upto, List.range']

theorem detect_single {F : Type} (ops : FloatOps F) (ext : Library F) (g : Globals F)
    (frame : IplImage) (pyr0 : Nat → IplImage) (rcsq0 : Int → F) (h : g.usepyr = 0) :
    detect ops ext g frame pyr0 rcsq0 = single_scan ext g (to_gray ext frame) pyr0 rcsq0 := by
  simp [detect, h]

/-- What one pass of the loop body does to the call list and the count. -/
theorem pyr_body_call {F : Type} (ops : FloatOps F) (ext : Library F) (g : Globals F)
    (st : Scan F) (i : Nat) :
    ∃ c : FOCall F,
      (pyr_body ops ext g st i).calls = st.calls ++ [c] ∧
      (pyr_body ops ext g st i).ndetections = st.ndetections + ((ext.find_objects c).length : Int) ∧
      c.rcsq = 4 * st.ndetections ∧
      c.maxndetections = MAXNDETECTIONS - st.ndetections ∧
      (pyr_body ops ext g st i).rcsq
        = rescale ops i (ext.find_objects c).length st.ndetections
            (write_dets st.rcsq (4 * st.ndetections) (ext.find_objects c)) := by
  refine ⟨_, rfl, rfl, rfl, rfl, ?_⟩
  simp [pyr_body]

/-- The loop body leaves every float below `4 * ndetections` alone. -/
theorem pyr_body_old {F : Type} (ops : FloatOps F) (ext : Library F) (g : Globals F)
    (st : Scan F) (i : Nat) (idx : Int) (h : idx < 4 * st.ndetections) :
    (pyr_body ops ext g st i).rcsq idx = st.rcsq idx := by
  obtain ⟨c, _, _, _, _, hr⟩ := pyr_body_call ops ext g st i
  rw [hr, rescale_frame _ _ _ _ _ _ (Or.inl h), write_dets_frame _ _ _ _ (Or.inl h)]

/-- The loop body stores detection `k` of the level, scaled by `1 << i`, as
entry `ndetections + k`. -/
theorem pyr_body_new {F : Type} (ops : FloatOps F) (ext : Library F) (g : Globals F)
    (st : Scan F) (i : Nat) (c : FOCall F)
    (hc : (pyr_body ops ext g st i).calls = st.calls ++ [c])
    (k : Nat) (d : Det F) (hd : (ext.find_objects c)[k]? = some d) :
    entry (pyr_body ops ext g st i).rcsq (st.ndetections + k)
      = { r := ops.mul (ops.ofInt ((1 <<< i : Nat) : Int)) d.r,
          c := ops.mul (ops.ofInt ((1 <<< i : Nat) : Int)) d.c,
          s := ops.mul (ops.ofInt ((1 <<< i : Nat) : Int)) d.s,
          q := d.q } := by
  obtain ⟨c', hc', _, _, _, hr⟩ := pyr_body_call ops ext g st i
  have hcc : c' = c := by
    rw [hc'] at hc
    simpa using hc
  subst hcc
  have hk : k < (ext.find_objects c').length := by
    rcases Nat.lt_or_ge k (ext.find_objects c').length with h | h
    · exact h
    · rw [List.getElem?_eq_none h] at hd; cases hd
  obtain ⟨w0, w1, w2, w3⟩ := write_dets_hit (ext.find_objects c') st.rcsq (4 * st.ndetections) k d hd
  obtain ⟨r0, r1, r2⟩ := rescale_hit ops i (ext.find_objects c').length st.ndetections
    (write_dets st.rcsq (4 * st.ndetections) (ext.find_objects c')) k hk
  have e0 : 4 * (st.ndetections + (k : Int)) + 0 = 4 * st.ndetections + 4 * k + 0 := by ring
  have e1 : 4 * (st.ndetections + (k : Int)) + 1 = 4 * st.ndetections + 4 * k + 1 := by ring
  have e2 : 4 * (st.ndetections + (k : Int)) + 2 = 4 * st.ndetections + 4 * k + 2 := by ring
  have e3 : 4 * (st.ndetections + (k : Int)) + 3 = 4 * st.ndetections + 4 * k + 3 := by ring
  simp only [entry, hr]
  rw [r0, r1, r2, rescale_frame _ _ _ _ _ _ (Or.inr (Or.inr (by omega)))]
  rw [e0, e1, e2, e3, w0, w1, w2, w3]


/-! ## The combined list -/

theorem entries_add {F : Type} (rcsq : Int → F) (a b : Nat) :
    entries rcsq (a + b)
      = entries rcsq a ++ (List.range b).map (fun (k : Nat) => entry rcsq ((a : Int) + (k : Int))) := by
  simp [entries, List.range_add, List.map_append, Function.comp_def]

theorem entries_congr {F : Type} (r1 r2 : Int → F) (n : Nat)
    (h : ∀ idx : Int, idx < 4 * (n : Int) → r1 idx = r2 idx) :
    entries r1 n = entries r2 n := by
  unfold entries
  apply List.map_congr_left
  intro j hj
  have hj' : j < n := List.mem_range.mp hj
  simp only [entry]
  rw [h _ (by omega), h _ (by omega), h _ (by omega), h _ (by omega)]

theorem entries_write_dets {F : Type} (rcsq0 : Int → F) (ds : List (Det F)) :
    entries (write_dets rcsq0 0 ds) ds.length = ds := by
  apply List.ext_getElem?
  intro n
  rcases Nat.lt_or_ge n ds.length with h | h
  · obtain ⟨w0, w1, w2, w3⟩ := write_dets_hit ds rcsq0 0 n ds[n] (List.getElem?_eq_getElem h)
    simp only [zero_add] at w0 w1 w2 w3
    simp only [entries, List.getElem?_map, List.getElem?_range h, List.getElem?_eq_getElem h,
      Option.map_some', entry, w0, w1, w2, w3]
  · rw [List.getElem?_eq_none h, List.getElem?_eq_none (by simpa [entries] using h)]

theorem scale_det_zero {F : Type} (ops : FloatOps F) (hone : ∀ x, ops.mul (ops.ofInt 1) x = x)
    (d : Det F) : scale_det ops 0 d = d := by
  simp [scale_det, hone]

/-- One pass of the loop body appends the detections of the level, scaled, to
the list collected so far. -/
theorem pyr_body_entries {F : Type} (ops : FloatOps F) (ext : Library F) (g : Globals F)
    (st : Scan F) (i : Nat) (c : FOCall F) (hnd : 0 ≤ st.ndetections)
    (hc : (pyr_body ops ext g st i).calls = st.calls ++ [c]) :
    entries (pyr_body ops ext g st i).rcsq
        (st.ndetections.toNat + (ext.find_objects c).length)
      = entries st.rcsq st.ndetections.toNat ++ (ext.find_objects c).map (scale_det ops i) := by
  have hN : ((st.ndetections.toNat : Nat) : Int) = st.ndetections := Int.toNat_of_nonneg hnd
  rw [entries_add]
  congr 1
  · apply entries_congr
    intro idx hidx
    exact pyr_body_old ops ext g st i idx (by omega)
  · apply List.ext_getElem?
    intro k
    rcases Nat.lt_or_ge k (ext.find_objects c).length with h | h
    · have hd : (ext.find_objects c)[k]? = some (ext.find_objects c)[k] :=
        List.getElem?_eq_getElem h
      have := pyr_body_new ops ext g st i c hc k _ hd
      simp only [List.getElem?_map, List.getElem?_range h, hd, Option.map_some', hN, this,
        scale_det, Nat.one_shiftLeft, Nat.cast_pow, Nat.cast_ofNat]
    · rw [List.getElem?_eq_none (by simpa using h), List.getElem?_eq_none (by simpa using h)]


/-! ## The pyramid run -/

/-- Level 0 in terms of the count as a natural number. -/
theorem pyr_upto_start {F : Type} (ops : FloatOps F) (ext : Library F) (g : Globals F)
    (gray : IplImage) (pyr0 : Nat → IplImage) (rcsq0 : Int → F) :
    ∃ c : FOCall F,
      (pyr_upto ops ext g gray pyr0 rcsq0 0).calls = [c] ∧
      (pyr_upto ops ext g gray pyr0 rcsq0 0).ndetections = ((ext.find_objects c).length : Int) ∧
      c.rcsq = 0 ∧ c.maxndetections = MAXNDETECTIONS ∧
      entries (pyr_upto ops ext g gray pyr0 rcsq0 0).rcsq (ext.find_objects c).length
        = ext.find_objects c :=
  ⟨_, rfl, rfl, rfl, rfl, entries_write_dets _ _⟩

/-- Level `n + 1` in terms of the count as a natural number. -/
theorem pyr_upto_step {F : Type} (ops : FloatOps F) (ext : Library F) (g : Globals F)
    (gray : IplImage) (pyr0 : Nat → IplImage) (rcsq0 : Int → F) (n N : Nat)
    (hN : (pyr_upto ops ext g gray pyr0 rcsq0 n).ndetections = (N : Int)) :
    ∃ c : FOCall F,
      (pyr_upto ops ext g gray pyr0 rcsq0 (n + 1)).calls
        = (pyr_upto ops ext g gray pyr0 rcsq0 n).calls ++ [c] ∧
      (pyr_upto ops ext g gray pyr0 rcsq0 (n + 1)).ndetections
        = ((N + (ext.find_objects c).length : Nat) : Int) ∧
      c.rcsq = 4 * (N : Int) ∧ c.maxndetections = MAXNDETECTIONS - (N : Int) ∧
      entries (pyr_upto ops ext g gray pyr0 rcsq0 (n + 1)).rcsq (N + (ext.find_objects c).length)
        = entries (pyr_upto ops ext g gray pyr0 rcsq0 n).rcsq N
            ++ (ext.find_objects c).map (scale_det ops (n + 1)) := by
  obtain ⟨c, hc, hn, hr, hm, -⟩ :=
    pyr_body_call ops ext g (pyr_upto ops ext g gray pyr0 rcsq0 n) (n + 1)
  have he := pyr_body_entries ops ext g (pyr_upto ops ext g gray pyr0 rcsq0 n) (n + 1) c
    (by rw [hN]; exact Int.natCast_nonneg N) hc
  rw [← pyr_upto_succ] at hc hn he
  rw [hN] at hn hr hm he
  rw [Int.toNat_natCast] at he
  exact ⟨c, hc, by rw [hn]; push_cast; rfl, hr, hm, he⟩

theorem pyr_upto_nonneg {F : Type} (ops : FloatOps F) (ext : Library F) (g : Globals F)
    (gray : IplImage) (pyr0 : Nat → IplImage) (rcsq0 : Int → F) (n : Nat) :
    ∃ N : Nat, (pyr_upto ops ext g gray pyr0 rcsq0 n).ndetections = (N : Int) := by
  induction n with
  | zero => exact ⟨_, rfl⟩
  | succ n ih =>
    obtain ⟨N, hN⟩ := ih
    obtain ⟨c, -, hn, -⟩ := pyr_upto_step ops ext g gray pyr0 rcsq0 n N hN
    exact ⟨_, hn⟩

theorem pyr_upto_calls_length {F : Type} (ops : FloatOps F) (ext : Library F) (g : Globals F)
    (gray : IplImage) (pyr0 : Nat → IplImage) (rcsq0 : Int → F) (n : Nat) :
    (pyr_upto ops ext g gray pyr0 rcsq0 n).calls.length = n + 1 := by
  induction n with
  | zero => rfl
  | succ n ih =>
    obtain ⟨N, hN⟩ := pyr_upto_nonneg ops ext g gray pyr0 rcsq0 n
    obtain ⟨c, hc, -⟩ := pyr_upto_step ops ext g gray pyr0 rcsq0 n N hN
    rw [hc, List.length_append, ih]; rfl

theorem pyr_upto_calls_mono {F : Type} (ops : FloatOps F) (ext : Library F) (g : Globals F)
    (gray : IplImage) (pyr0 : Nat → IplImage) (rcsq0 : Int → F) (n m : Nat) (h : n ≤ m) :
    ∃ l, (pyr_upto ops ext g gray pyr0 rcsq0 m).calls
      = (pyr_upto ops ext g gray pyr0 rcsq0 n).calls ++ l := by
  induction m with
  | zero =>
    have : n = 0 := by omega
    subst this
    exact ⟨[], by simp⟩
  | succ m ih =>
    rcases Nat.lt_or_ge n (m + 1) with hlt | hge
    · obtain ⟨l, hl⟩ := ih (by omega)
      obtain ⟨N, hN⟩ := pyr_upto_nonneg ops ext g gray pyr0 rcsq0 m
      obtain ⟨c, hc, -⟩ := pyr_upto_step ops ext g gray pyr0 rcsq0 m N hN
      exact ⟨l ++ [c], by rw [hc, hl, List.append_assoc]⟩
    · have : n = m + 1 := by omega
      subst this
      exact ⟨[], by simp⟩

/-- The call made at level `n + 1` is call number `n + 1` of every later state. -/
theorem pyr_upto_call_at {F : Type} (ops : FloatOps F) (ext : Library F) (g : Globals F)
    (gray : IplImage) (pyr0 : Nat → IplImage) (rcsq0 : Int → F) (n m : Nat) (h : n + 1 ≤ m)
    (c : FOCall F)
    (hc : (pyr_upto ops ext g gray pyr0 rcsq0 (n + 1)).calls
      = (pyr_upto ops ext g gray pyr0 rcsq0 n).calls ++ [c]) :
    (pyr_upto ops ext g gray pyr0 rcsq0 m).calls[n + 1]? = some c := by
  obtain ⟨l, hl⟩ := pyr_upto_calls_mono ops ext g gray pyr0 rcsq0 (n + 1) m h
  have hlen := pyr_upto_calls_length ops ext g gray pyr0 rcsq0 n
  rw [hl, hc, List.append_assoc, List.getElem?_append_right (by omega), hlen]
  simp

/-- The running count never decreases and floats below it are final. -/
theorem pyr_upto_stable {F : Type} (ops : FloatOps F) (ext : Library F) (g : Globals F)
    (gray : IplImage) (pyr0 : Nat → IplImage) (rcsq0 : Int → F) (i : Nat) :
    ∀ n, i ≤ n →
      (pyr_upto ops ext g gray pyr0 rcsq0 i).ndetections
        ≤ (pyr_upto ops ext g gray pyr0 rcsq0 n).ndetections ∧
      ∀ idx : Int, idx < 4 * (pyr_upto ops ext g gray pyr0 rcsq0 i).ndetections →
        (pyr_upto ops ext g gray pyr0 rcsq0 n).rcsq idx
          = (pyr_upto ops ext g gray pyr0 rcsq0 i).rcsq idx := by
  intro n hn
  induction n with
  | zero =>
    have : i = 0 := by omega
    subst this
    exact ⟨le_refl _, fun _ _ => rfl⟩
  | succ n ih =>
    rcases Nat.lt_or_ge i (n + 1) with hlt | hge
    · obtain ⟨hle, hfr⟩ := ih (by omega)
      obtain ⟨N, hN⟩ := pyr_upto_nonneg ops ext g gray pyr0 rcsq0 n
      obtain ⟨c, -, hnd, -⟩ := pyr_upto_step ops ext g gray pyr0 rcsq0 n N hN
      refine ⟨by rw [hnd]; rw [hN] at hle; push_cast; omega, ?_⟩
      intro idx hidx
      rw [pyr_upto_succ, pyr_body_old _ _ _ _ _ _ (by omega)]
      exact hfr idx hidx
    · have : i = n + 1 := by omega
      subst this
      exact ⟨le_refl _, fun _ _ => rfl⟩


/-! ## Claims about the pyramid driver -/

/-- C1: in pyramid mode `process_image` calls `find_objects` five times, on the
images of levels 0, 1, 2, 3, 4 in this order; the size range passed is
`(max(16, minsize), min(128, maxsize))` at level 0 and
`(max(64, minsize >> i), min(128, maxsize >> i))` at the levels `i = 1..4`. -/
theorem pyramid_size_ranges {F : Type} (ops : FloatOps F) (ext : Library F) (g : Globals F)
    (frame : IplImage) (draw : Int) (pyr0 : Nat → IplImage) (rcsq0 : Int → F)
    (h : g.usepyr ≠ 0) :
    (process_image ops ext g frame draw pyr0 rcsq0).calls.map (fun c => (c.minsize, c.maxsize))
      = [(max 16 g.minsize, min 128 g.maxsize),
         (max 64 (g.minsize >>> (1 : Nat)), min 128 (g.maxsize >>> (1 : Nat))),
         (max 64 (g.minsize >>> (2 : Nat)), min 128 (g.maxsize >>> (2 : Nat))),
         (max 64 (g.minsize >>> (3 : Nat)), min 128 (g.maxsize >>> (3 : Nat))),
         (max 64 (g.minsize >>> (4 : Nat)), min 128 (g.maxsize >>> (4 : Nat)))] ∧
    (process_image ops ext g frame draw pyr0 rcsq0).calls.map call_image
      = [0, 1, 2, 3, 4].map (fun i => image_args (level_image ext (to_gray ext frame) i)) := by
  constructor
  · simp [process_image, detect, h, pyr_body, pyr_level0, MAX_eq_max, MIN_eq_min]
  · simp [process_image, detect, h, pyr_body, pyr_level0, set_pyr, call_image, image_args,
      level_image]

/-- Witness of C1 on the sample instance (`minsize = 128`, `maxsize = 200`). -/
theorem pyramid_size_ranges_witness :
    (process_image rat_ops demo_lib (demo_globals 1 0) demo_frame 1 demo_pyr demo_rcsq).calls.map
        (fun c => (c.minsize, c.maxsize))
      = [(128, 128), (64, 100), (64, 50), (64, 25), (64, 12)] :=
  (pyramid_size_ranges rat_ops demo_lib (demo_globals 1 0) demo_frame 1 demo_pyr demo_rcsq
    (by decide)).1.trans (by decide)

/-- C2: in pyramid mode the combined list handed on by the detection stage is
the concatenation, over the levels `i = 0..4` in order, of the detections
`find_objects` returned at level `i` with `r`, `c`, `s` multiplied by `2^i`
and `q` as returned.  (Level 0 is stored unscaled; `hone` says that this is
multiplication by `1` in the float type, as it is for IEEE floats.) -/
theorem pyramid_rescaling {F : Type} (ops : FloatOps F) (ext : Library F) (g : Globals F)
    (frame : IplImage) (pyr0 : Nat → IplImage) (rcsq0 : Int → F)
    (hone : ∀ x, ops.mul (ops.ofInt 1) x = x) (h : g.usepyr ≠ 0) :
    ∃ c0 c1 c2 c3 c4 : FOCall F,
      (detect ops ext g frame pyr0 rcsq0).calls = [c0, c1, c2, c3, c4] ∧
      (detect ops ext g frame pyr0 rcsq0).ndetections
        = (((ext.find_objects c0).length + (ext.find_objects c1).length
            + (ext.find_objects c2).length + (ext.find_objects c3).length
            + (ext.find_objects c4).length : Nat) : Int) ∧
      entries (detect ops ext g frame pyr0 rcsq0).rcsq
          (detect ops ext g frame pyr0 rcsq0).ndetections.toNat
        = (ext.find_objects c0).map (scale_det ops 0)
          ++ (ext.find_objects c1).map (scale_det ops 1)
          ++ (ext.find_objects c2).map (scale_det ops 2)
          ++ (ext.find_objects c3).map (scale_det ops 3)
          ++ (ext.find_objects c4).map (scale_det ops 4) := by
  rw [detect_pyr ops ext g frame pyr0 rcsq0 h]
  generalize to_gray ext frame = gray
  obtain ⟨c0, hc0, hn0, -, -, he0⟩ := pyr_upto_start ops ext g gray pyr0 rcsq0
  obtain ⟨c1, hc1, hn1, -, -, he1⟩ := pyr_upto_step ops ext g gray pyr0 rcsq0 0 _ hn0
  obtain ⟨c2, hc2, hn2, -, -, he2⟩ := pyr_upto_step ops ext g gray pyr0 rcsq0 1 _ hn1
  obtain ⟨c3, hc3, hn3, -, -, he3⟩ := pyr_upto_step ops ext g gray pyr0 rcsq0 2 _ hn2
  obtain ⟨c4, hc4, hn4, -, -, he4⟩ := pyr_upto_step ops ext g gray pyr0 rcsq0 3 _ hn3
  refine ⟨c0, c1, c2, c3, c4, ?_, hn4, ?_⟩
  · rw [hc4, hc3, hc2, hc1, hc0]; rfl
  · have hz : (ext.find_objects c0).map (scale_det ops 0) = ext.find_objects c0 := by
      conv_rhs => rw [← List.map_id (ext.find_objects c0)]
      exact List.map_congr_left (fun d _ => scale_det_zero ops hone d)
    rw [hn4, Int.toNat_natCast, he4, he3, he2, he1, he0, hz]

/-- Witness of C2 on the sample instance. -/
theorem pyramid_rescaling_witness :
    ∃ c0 c1 c2 c3 c4 : FOCall ℚ,
      (detect rat_ops demo_lib (demo_globals 1 0) demo_frame demo_pyr demo_rcsq).calls
        = [c0, c1, c2, c3, c4] ∧
      (detect rat_ops demo_lib (demo_globals 1 0) demo_frame demo_pyr demo_rcsq).ndetections
        = (((demo_lib.find_objects c0).length + (demo_lib.find_objects c1).length
            + (demo_lib.find_objects c2).length + (demo_lib.find_objects c3).length
            + (demo_lib.find_objects c4).length : Nat) : Int) ∧
      entries (detect rat_ops demo_lib (demo_globals 1 0) demo_frame demo_pyr demo_rcsq).rcsq
          (detect rat_ops demo_lib (demo_globals 1 0) demo_frame demo_pyr demo_rcsq).ndetections.toNat
        = (demo_lib.find_objects c0).map (scale_det rat_ops 0)
          ++ (demo_lib.find_objects c1).map (scale_det rat_ops 1)
          ++ (demo_lib.find_objects c2).map (scale_det rat_ops 2)
          ++ (demo_lib.find_objects c3).map (scale_det rat_ops 3)
          ++ (demo_lib.find_objects c4).map (scale_det rat_ops 4) :=
  pyramid_rescaling rat_ops demo_lib (demo_globals 1 0) demo_frame demo_pyr demo_rcsq
    (fun x => by simp [rat_ops]) (by decide)

/-- C10: rescaling the results of level `i + 1` (`i + 1` in `1..4`) touches only
the `r`, `c`, `s` slots of the entries of that level: the rescaling loop
changes no float below its first entry and no confidence slot; every float
collected at the levels up to `i` is the same after level `i + 1`; the
confidence of each new entry is the one `find_objects` returned; and the
floats collected up to level `i + 1` keep their values through all later
levels, so no entry is scaled a second time. -/
theorem rescaling_frame {F : Type} (ops : FloatOps F) (ext : Library F) (g : Globals F)
    (gray : IplImage) (pyr0 : Nat → IplImage) (rcsq0 : Int → F) (i : Nat) (hi : i < 4) :
    (∀ (n : Nat) (j : Int) (rcsq : Int → F) (idx : Int), (idx < 4 * j ∨ idx % 4 = 3) →
      rescale ops (i + 1) n j rcsq idx = rcsq idx) ∧
    (∀ idx : Int, idx < 4 * (pyr_upto ops ext g gray pyr0 rcsq0 i).ndetections →
      (pyr_upto ops ext g gray pyr0 rcsq0 (i + 1)).rcsq idx
        = (pyr_upto ops ext g gray pyr0 rcsq0 i).rcsq idx) ∧
    (∃ c : FOCall F, (pyr_upto ops ext g gray pyr0 rcsq0 4).calls[i + 1]? = some c ∧
      ∀ (k : Nat) (d : Det F), (ext.find_objects c)[k]? = some d →
        (pyr_upto ops ext g gray pyr0 rcsq0 (i + 1)).rcsq
          (4 * ((pyr_upto ops ext g gray pyr0 rcsq0 i).ndetections + k) + 3) = d.q) ∧
    (∀ n : Nat, i + 1 ≤ n → n ≤ 4 →
      ∀ idx : Int, idx < 4 * (pyr_upto ops ext g gray pyr0 rcsq0 (i + 1)).ndetections →
        (pyr_upto ops ext g gray pyr0 rcsq0 n).rcsq idx
          = (pyr_upto ops ext g gray pyr0 rcsq0 (i + 1)).rcsq idx) := by
  refine ⟨?_, ?_, ?_, ?_⟩
  · intro n j rcsq idx hidx
    exact rescale_frame ops (i + 1) n j rcsq idx (by omega)
  · intro idx hidx
    rw [pyr_upto_succ]
    exact pyr_body_old ops ext g _ (i + 1) idx hidx
  · obtain ⟨c, hc, -⟩ := pyr_body_call ops ext g (pyr_upto ops ext g gray pyr0 rcsq0 i) (i + 1)
    refine ⟨c, pyr_upto_call_at ops ext g gray pyr0 rcsq0 i 4 (by omega) c
      (by rw [pyr_upto_succ]; exact hc), ?_⟩
    intro k d hd
    have := pyr_body_new ops ext g (pyr_upto ops ext g gray pyr0 rcsq0 i) (i + 1) c hc k d hd
    rw [pyr_upto_succ]
    exact congrArg Det.q this
  · intro n hn _ idx hidx
    exact (pyr_upto_stable ops ext g gray pyr0 rcsq0 (i + 1) n hn).2 idx hidx

/-- Witness of C10 on the sample instance: the first float of level 0 is the
same after level 1 as before. -/
theorem rescaling_frame_witness :
    (pyr_upto rat_ops demo_lib (demo_globals 1 0) demo_frame demo_pyr demo_rcsq 1).rcsq 0
      = (pyr_upto rat_ops demo_lib (demo_globals 1 0) demo_frame demo_pyr demo_rcsq 0).rcsq 0 :=
  (rescaling_frame rat_ops demo_lib (demo_globals 1 0) demo_frame demo_pyr demo_rcsq 0
    (by decide)).2.1 0 (by decide)


/-! ## Capacity -/

/-- With a scanner that respects its capacity, the running count stays within
`0..2048` at every level. -/
theorem pyr_upto_bounded {F : Type} (ops : FloatOps F) (ext : Library F) (g : Globals F)
    (gray : IplImage) (pyr0 : Nat → IplImage) (rcsq0 : Int → F)
    (hcap : ∀ c : FOCall F, 0 ≤ c.maxndetections →
      ((ext.find_objects c).length : Int) ≤ c.maxndetections) (n : Nat) :
    ∃ N : Nat, (pyr_upto ops ext g gray pyr0 rcsq0 n).ndetections = (N : Int) ∧ N ≤ 2048 := by
  induction n with
  | zero =>
    obtain ⟨c, -, hn, -, hm, -⟩ := pyr_upto_start ops ext g gray pyr0 rcsq0
    have := hcap c (by rw [hm]; decide)
    rw [hm] at this
    simp only [MAXNDETECTIONS] at this
    exact ⟨_, hn, by omega⟩
  | succ n ih =>
    obtain ⟨N, hN, hle⟩ := ih
    obtain ⟨c, -, hn, -, hm, -⟩ := pyr_upto_step ops ext g gray pyr0 rcsq0 n N hN
    have := hcap c (by rw [hm]; simp only [MAXNDETECTIONS]; omega)
    rw [hm] at this
    simp only [MAXNDETECTIONS] at this
    exact ⟨_, hn, by omega⟩

/-- The one call of the non-pyramid branch. -/
theorem single_scan_call {F : Type} (ext : Library F) (g : Globals F)
    (gray : IplImage) (pyr0 : Nat → IplImage) (rcsq0 : Int → F) :
    ∃ c : FOCall F,
      (single_scan ext g gray pyr0 rcsq0).calls = [c] ∧
      (single_scan ext g gray pyr0 rcsq0).ndetections = ((ext.find_objects c).length : Int) ∧
      c.rcsq = 0 ∧ c.maxndetections = MAXNDETECTIONS :=
  ⟨_, rfl, rfl, rfl, rfl⟩

/-- C6: if every call of `find_objects` returns at most as many detections as
the capacity it was given, then the count handed to clustering lies in
`0..2048`; in pyramid mode the running count after each of the levels `0..4`
lies in `0..2048`, the first call gets offset 0 and capacity 2048, and the call
of level `n + 1` gets offset `4 * total` and capacity `2048 - total` for the
running count `total` after level `n`, which is not negative and keeps the
slice inside the `4 * 2048` floats of the buffer; in non-pyramid mode the one
call gets offset 0 and capacity 2048. -/
theorem detection_cap {F : Type} (ops : FloatOps F) (ext : Library F) (g : Globals F)
    (frame : IplImage) (pyr0 : Nat → IplImage) (rcsq0 : Int → F)
    (hcap : ∀ c : FOCall F, 0 ≤ c.maxndetections →
      ((ext.find_objects c).length : Int) ≤ c.maxndetections) :
    (0 ≤ (detect ops ext g frame pyr0 rcsq0).ndetections ∧
      (detect ops ext g frame pyr0 rcsq0).ndetections ≤ MAXNDETECTIONS) ∧
    (g.usepyr ≠ 0 →
      (∀ n : Nat, n ≤ 4 →
        0 ≤ (pyr_upto ops ext g (to_gray ext frame) pyr0 rcsq0 n).ndetections ∧
        (pyr_upto ops ext g (to_gray ext frame) pyr0 rcsq0 n).ndetections ≤ MAXNDETECTIONS) ∧
      (∃ c : FOCall F, (detect ops ext g frame pyr0 rcsq0).calls[0]? = some c ∧
        c.rcsq = 0 ∧ c.maxndetections = MAXNDETECTIONS) ∧
      (∀ n : Nat, n < 4 →
        ∃ c : FOCall F, (detect ops ext g frame pyr0 rcsq0).calls[n + 1]? = some c ∧
          c.rcsq = 4 * (pyr_upto ops ext g (to_gray ext frame) pyr0 rcsq0 n).ndetections ∧
          c.maxndetections
            = MAXNDETECTIONS - (pyr_upto ops ext g (to_gray ext frame) pyr0 rcsq0 n).ndetections ∧
          0 ≤ c.maxndetections ∧ 0 ≤ c.rcsq ∧
          c.rcsq + 4 * c.maxndetections ≤ 4 * MAXNDETECTIONS)) ∧
    (g.usepyr = 0 →
      ∃ c : FOCall F, (detect ops ext g frame pyr0 rcsq0).calls = [c] ∧
        c.rcsq = 0 ∧ c.maxndetections = MAXNDETECTIONS) := by
  refine ⟨?_, ?_, ?_⟩
  · by_cases h : g.usepyr = 0
    · rw [detect_single ops ext g frame pyr0 rcsq0 h]
      obtain ⟨c, -, hn, -, hm⟩ := single_scan_call ext g (to_gray ext frame) pyr0 rcsq0
      have := hcap c (by rw [hm]; decide)
      rw [hm] at this
      rw [hn]
      exact ⟨Int.natCast_nonneg _, this⟩
    · rw [detect_pyr ops ext g frame pyr0 rcsq0 h]
      obtain ⟨N, hN, hle⟩ := pyr_upto_bounded ops ext g (to_gray ext frame) pyr0 rcsq0 hcap 4
      rw [hN]
      simp only [MAXNDETECTIONS]
      omega
  · intro h
    rw [detect_pyr ops ext g frame pyr0 rcsq0 h]
    refine ⟨?_, ?_, ?_⟩
    · intro n _
      obtain ⟨N, hN, hle⟩ := pyr_upto_bounded ops ext g (to_gray ext frame) pyr0 rcsq0 hcap n
      rw [hN]
      simp only [MAXNDETECTIONS]
      omega
    · obtain ⟨c, hc, -, hr, hm, -⟩ := pyr_upto_start ops ext g (to_gray ext frame) pyr0 rcsq0
      obtain ⟨l, hl⟩ := pyr_upto_calls_mono ops ext g (to_gray ext frame) pyr0 rcsq0 0 4 (by omega)
      exact ⟨c, by rw [hl, hc]; simp, hr, hm⟩
    · intro n hn
      obtain ⟨N, hN, hle⟩ := pyr_upto_bounded ops ext g (to_gray ext frame) pyr0 rcsq0 hcap n
      obtain ⟨c, hc, -, hr, hm, -⟩ :=
        pyr_upto_step ops ext g (to_gray ext frame) pyr0 rcsq0 n N hN
      refine ⟨c, pyr_upto_call_at ops ext g (to_gray ext frame) pyr0 rcsq0 n 4 (by omega) c hc,
        by rw [hr, hN], by rw [hm, hN], ?_, ?_, ?_⟩
      · rw [hm]; simp only [MAXNDETECTIONS]; omega
      · rw [hr]; omega
      · rw [hr, hm]; simp only [MAXNDETECTIONS]; omega
  · intro h
    rw [detect_single ops ext g frame pyr0 rcsq0 h]
    exact ⟨_, rfl, rfl, rfl⟩

/-- The sample scanner respects its capacity. -/
theorem demo_lib_capacity (c : FOCall ℚ) (h : 0 ≤ c.maxndetections) :
    ((demo_lib.find_objects c).length : Int) ≤ c.maxndetections := by
  simp only [demo_lib, List.length_take, List.length_cons, List.length_nil]
  omega

/-- Witness of C6 on the sample instance in pyramid mode. -/
theorem detection_cap_witness :
    0 ≤ (detect rat_ops demo_lib (demo_globals 1 0) demo_frame demo_pyr demo_rcsq).ndetections ∧
    (detect rat_ops demo_lib (demo_globals 1 0) demo_frame demo_pyr demo_rcsq).ndetections
      ≤ MAXNDETECTIONS :=
  (detection_cap rat_ops demo_lib (demo_globals 1 0) demo_frame demo_pyr demo_rcsq
    demo_lib_capacity).1

/-! ## Clustering switch and confidence filter -/

theorem print_loop_eq {F : Type} (ops : FloatOps F) (rcsq : Int → F) (qthreshold : F) (n : Nat) :
    ∀ (i : Int) (acc : List (Line F)),
      print_loop ops rcsq qthreshold n i acc
        = acc ++ (((List.range n).map (fun (k : Nat) => entry rcsq (i + (k : Int)))).filter
            (fun d => ops.ge d.q qthreshold)).map (det_line ops) := by
  induction n with
  | zero => intro i acc; simp [print_loop]
  | succ n ih =>
    intro i acc
    have e : ∀ k : Nat, i + 1 + (k : Int) = i + ((k + 1 : Nat) : Int) := by
      intro k; push_cast; ring
    rw [print_loop, ih, List.range_succ_eq_map]
    simp only [List.map_cons, List.map_map, Function.comp_def, Nat.cast_zero, add_zero, e,
      List.filter_cons, Nat.succ_eq_add_one]
    by_cases hq : ops.ge (rcsq (4 * i + 3)) qthreshold = true
    · simp [hq, entry, line_of, det_line]
    · simp [hq, entry]

theorem draw_loop_eq {F : Type} (ops : FloatOps F) (rcsq : Int → F) (qthreshold : F) (n : Nat) :
    ∀ (i : Int) (acc : List Circle),
      draw_loop ops rcsq qthreshold n i acc
        = acc ++ (((List.range n).map (fun (k : Nat) => entry rcsq (i + (k : Int)))).filter
            (fun d => ops.ge d.q qthreshold)).map (det_circle ops) := by
  induction n with
  | zero => intro i acc; simp [draw_loop]
  | succ n ih =>
    intro i acc
    have e : ∀ k : Nat, i + 1 + (k : Int) = i + ((k + 1 : Nat) : Int) := by
      intro k; push_cast; ring
    rw [draw_loop, ih, List.range_succ_eq_map]
    simp only [List.map_cons, List.map_map, Function.comp_def, Nat.cast_zero, add_zero, e,
      List.filter_cons, Nat.succ_eq_add_one]
    by_cases hq : ops.ge (rcsq (4 * i + 3)) qthreshold = true
    · simp [hq, entry, circle_of, det_circle]
    · simp [hq, entry]

theorem print_loop_filter {F : Type} (ops : FloatOps F) (rcsq : Int → F) (qthreshold : F)
    (n : Nat) :
    print_loop ops rcsq qthreshold n 0 []
      = ((entries rcsq n).filter (fun d => ops.ge d.q qthreshold)).map (det_line ops) := by
  rw [print_loop_eq]
  simp [entries]

theorem draw_loop_filter {F : Type} (ops : FloatOps F) (rcsq : Int → F) (qthreshold : F)
    (n : Nat) :
    draw_loop ops rcsq qthreshold n 0 []
      = ((entries rcsq n).filter (fun d => ops.ge d.q qthreshold)).map (det_circle ops) := by
  rw [draw_loop_eq]
  simp [entries]


/-- C5: the lines `process_image` prints (in verbose mode) and the circles it
draws (when `draw` is set) are those of the entries with `q >= qthreshold`
among the detections left after the clustering step, all of them and in their
order; the two loops do this for every buffer, count and threshold. -/
theorem confidence_filter {F : Type} (ops : FloatOps F) (ext : Library F) (g : Globals F)
    (frame : IplImage) (draw : Int) (pyr0 : Nat → IplImage) (rcsq0 : Int → F) :
    (process_image ops ext g frame draw pyr0 rcsq0).printed
      = (if g.verbose ≠ 0 then
          ((entries (process_image ops ext g frame draw pyr0 rcsq0).rcsq
              (process_image ops ext g frame draw pyr0 rcsq0).ndetections.toNat).filter
            (fun d => ops.ge d.q g.qthreshold)).map (det_line ops)
        else []) ∧
    (process_image ops ext g frame draw pyr0 rcsq0).drawn
      = (if draw ≠ 0 then
          ((entries (process_image ops ext g frame draw pyr0 rcsq0).rcsq
              (process_image ops ext g frame draw pyr0 rcsq0).ndetections.toNat).filter
            (fun d => ops.ge d.q g.qthreshold)).map (det_circle ops)
        else []) ∧
    (∀ (rcsq : Int → F) (n : Nat) (qthreshold : F),
      print_loop ops rcsq qthreshold n 0 []
        = ((entries rcsq n).filter (fun d => ops.ge d.q qthreshold)).map (det_line ops)) ∧
    (∀ (rcsq : Int → F) (n : Nat) (qthreshold : F),
      draw_loop ops rcsq qthreshold n 0 []
        = ((entries rcsq n).filter (fun d => ops.ge d.q qthreshold)).map (det_circle ops)) := by
  refine ⟨?_, ?_, fun rcsq n q => print_loop_filter ops rcsq q n,
    fun rcsq n q => draw_loop_filter ops rcsq q n⟩
  · simp only [process_image, print_loop_filter]
  · simp only [process_image, draw_loop_filter]

/-- C7: with `noclustering` set, `cluster_detections` is not called and the
buffer and count that reach the confidence filter are those of the detection
stage; with `noclustering` clear, `cluster_detections` is called once, on the
buffer and the total count of the detection stage, and the buffer and count
it returns are the ones that reach the filter. -/
theorem clustering_switch {F : Type} (ops : FloatOps F) (ext : Library F) (g : Globals F)
    (frame : IplImage) (draw : Int) (pyr0 : Nat → IplImage) (rcsq0 : Int → F) :
    (g.noclustering ≠ 0 →
      (process_image ops ext g frame draw pyr0 rcsq0).cluster_calls = [] ∧
      (process_image ops ext g frame draw pyr0 rcsq0).rcsq
        = (detect ops ext g frame pyr0 rcsq0).rcsq ∧
      (process_image ops ext g frame draw pyr0 rcsq0).ndetections
        = (detect ops ext g frame pyr0 rcsq0).ndetections ∧
      (g.verbose ≠ 0 →
        (process_image ops ext g frame draw pyr0 rcsq0).printed
          = ((entries (detect ops ext g frame pyr0 rcsq0).rcsq
                (detect ops ext g frame pyr0 rcsq0).ndetections.toNat).filter
              (fun d => ops.ge d.q g.qthreshold)).map (det_line ops))) ∧
    (g.noclustering = 0 →
      (process_image ops ext g frame draw pyr0 rcsq0).cluster_calls
        = [((detect ops ext g frame pyr0 rcsq0).rcsq,
            (detect ops ext g frame pyr0 rcsq0).ndetections)] ∧
      (process_image ops ext g frame draw pyr0 rcsq0).rcsq
        = (ext.cluster_detections (detect ops ext g frame pyr0 rcsq0).rcsq
            (detect ops ext g frame pyr0 rcsq0).ndetections).1 ∧
      (process_image ops ext g frame draw pyr0 rcsq0).ndetections
        = (ext.cluster_detections (detect ops ext g frame pyr0 rcsq0).rcsq
            (detect ops ext g frame pyr0 rcsq0).ndetections).2 ∧
      (g.verbose ≠ 0 →
        (process_image ops ext g frame draw pyr0 rcsq0).printed
          = ((entries
                (ext.cluster_detections (detect ops ext g frame pyr0 rcsq0).rcsq
                  (detect ops ext g frame pyr0 rcsq0).ndetections).1
                (ext.cluster_detections (detect ops ext g frame pyr0 rcsq0).rcsq
                  (detect ops ext g frame pyr0 rcsq0).ndetections).2.toNat).filter
              (fun d => ops.ge d.q g.qthreshold)).map (det_line ops))) := by
  constructor
  · intro h
    refine ⟨?_, ?_, ?_, ?_⟩
    · simp [process_image, cluster_stage, h]
    · simp [process_image, cluster_stage, h]
    · simp [process_image, cluster_stage, h]
    · intro hv
      simp [process_image, cluster_stage, h, hv, print_loop_filter]
  · intro h
    refine ⟨?_, ?_, ?_, ?_⟩
    · simp [process_image, cluster_stage, h]
    · simp [process_image, cluster_stage, h]
    · simp [process_image, cluster_stage, h]
    · intro hv
      simp [process_image, cluster_stage, h, hv, print_loop_filter]

/-- Witness of C7 on the sample instance: with `-n` the count that reaches the
filter is the raw count, without it the count `cluster_detections` returned. -/
theorem clustering_switch_witness :
    (process_image rat_ops demo_lib (demo_globals 1 1) demo_frame 1 demo_pyr demo_rcsq).ndetections
      = (detect rat_ops demo_lib (demo_globals 1 1) demo_frame demo_pyr demo_rcsq).ndetections ∧
    (process_image rat_ops demo_lib (demo_globals 1 0) demo_frame 1 demo_pyr demo_rcsq).ndetections
      = (demo_lib.cluster_detections
          (detect rat_ops demo_lib (demo_globals 1 0) demo_frame demo_pyr demo_rcsq).rcsq
          (detect rat_ops demo_lib (demo_globals 1 0) demo_frame demo_pyr demo_rcsq).ndetections).2 :=
  ⟨((clustering_switch rat_ops demo_lib (demo_globals 1 1) demo_frame 1 demo_pyr demo_rcsq).1
      (by decide)).2.2.1,
   ((clustering_switch rat_ops demo_lib (demo_globals 1 0) demo_frame 1 demo_pyr demo_rcsq).2
      (by decide)).2.2.1⟩

/-! ## The non-pyramid call -/

/-- In non-pyramid mode `process_image` calls `find_objects` once, with the
configured `angle`, `scalefactor`, `stridefactor` and `minsize`, and with
`MIN(nrows, ncols)` of the grayscale image as `max_size`. -/
theorem nonpyramid_call {F : Type} (ops : FloatOps F) (ext : Library F) (g : Globals F)
    (frame : IplImage) (draw : Int) (pyr0 : Nat → IplImage) (rcsq0 : Int → F)
    (h : g.usepyr = 0) :
    (process_image ops ext g frame draw pyr0 rcsq0).calls
      = [{ rcsq := 0, maxndetections := 2048, cascade := g.cascade, angle := g.angle,
           pixels := (to_gray ext frame).imageData, nrows := (to_gray ext frame).height,
           ncols := (to_gray ext frame).width, ldim := (to_gray ext frame).widthStep,
           scalefactor := g.scalefactor, stridefactor := g.stridefactor, minsize := g.minsize,
           maxsize := min (to_gray ext frame).height (to_gray ext frame).width }] := by
  simp [process_image, detect, h, single_scan, MIN_eq_min, MAXNDETECTIONS]

/-- C3 at a failing input: `-M 200` without `-u` on a 640x480 frame.  The one
call of `find_objects` receives `max_size = 480`, not the configured 200; the
other parameters arrive unchanged. -/
theorem nonpyramid_maxsize_ignored :
    (demo_globals 0 0).maxsize = 200 ∧
    (process_image rat_ops demo_lib (demo_globals 0 0) demo_frame 1 demo_pyr demo_rcsq).calls.map
        (fun c => (c.minsize, c.maxsize)) = [(128, 480)] := by
  decide


/-! ## Loading the cascade -/

theorem size_t_of_small (n : Nat) (h : n < 2 ^ 31) : to_size_t (to_int32 (n : Int)) = n := by
  unfold to_size_t to_int32
  have e31 : (2 : Int) ^ 31 = 2147483648 := by norm_num
  have e32 : (2 : Int) ^ 32 = 4294967296 := by norm_num
  have e64 : (2 : Int) ^ 64 = 18446744073709551616 := by norm_num
  have h' : n < 2147483648 := by
    have : (2 : Nat) ^ 31 = 2147483648 := by norm_num
    omega
  rw [e31, e32, e64]
  omega

/-- C4 (counterexample): a five-byte file, shorter than the header, is loaded
and installed as the cascade. -/
theorem short_blob_is_loaded :
    spec_size_law [0, 0, 0, 0, 0] = false ∧
    load_cascade demo_sys "short.bin" = .ok [0, 0, 0, 0, 0] ∧
    main_setup rat_ops demo_sys ["pico", "short.bin"]
      = .run (set_defaults rat_ops [0, 0, 0, 0, 0]) := by
  refine ⟨by decide, by rfl, by rfl⟩

/-- C4 (amended): loading looks at no byte of the blob.  With `size` the
length of the file narrowed to `int`, it succeeds exactly when the file can be
opened, the allocation of `size` bytes succeeds and `fread` delivers `size`
bytes; the cascade is then the first `size` bytes of the file, which is the
whole file, unchanged, whenever the file is shorter than `2^31` bytes.  In
every other case loading fails with status 1, and `main` returns 1. -/
theorem load_cascade_unchecked {F : Type} (sys : Sys F) (path : String) :
    (∀ cascade : List Nat, load_cascade sys path = .ok cascade ↔
      ∃ bytes : List Nat, sys.fopen path = some bytes ∧
        sys.malloc (to_size_t (to_int32 (bytes.length : Int))) = true ∧
        sys.fread bytes (to_size_t (to_int32 (bytes.length : Int)))
          = to_size_t (to_int32 (bytes.length : Int)) ∧
        cascade = bytes.take (to_size_t (to_int32 (bytes.length : Int)))) ∧
    (∀ bytes : List Nat, bytes.length < 2 ^ 31 →
      bytes.take (to_size_t (to_int32 (bytes.length : Int))) = bytes) ∧
    (∀ status : Nat, load_cascade sys path = .error status → status = 1) ∧
    (∀ (ops : FloatOps F) (prog : String) (args : List String),
      path ≠ "-h" → path ≠ "--help" →
      (∀ cascade : List Nat, load_cascade sys path ≠ .ok cascade) →
      main_setup ops sys (prog :: path :: args) = .exit 1) := by
  have h3 : ∀ status : Nat, load_cascade sys path = .error status → status = 1 := by
    intro status
    unfold load_cascade
    cases sys.fopen path with
    | none => simp; intro h; exact h.symm
    | some bytes =>
      simp only
      split
      · simp; intro h; exact h.symm
      · simp
  refine ⟨?_, ?_, h3, ?_⟩
  · intro cascade
    unfold load_cascade
    cases hf : sys.fopen path with
    | none => simp
    | some bytes =>
      simp only [Option.some.injEq, exists_eq_left']
      by_cases hm : sys.malloc (to_size_t (to_int32 (bytes.length : Int))) = true
      · by_cases hr : to_size_t (to_int32 (bytes.length : Int))
            = sys.fread bytes (to_size_t (to_int32 (bytes.length : Int)))
        · simp [hm, ← hr, eq_comm]
        · have hr' : ¬ sys.fread bytes (to_size_t (to_int32 (bytes.length : Int)))
              = to_size_t (to_int32 (bytes.length : Int)) := fun e => hr e.symm
          simp [hm, hr, hr']
      · simp [hm]
  · intro bytes h
    rw [size_t_of_small _ h]
    exact List.take_length _
  · intro ops prog args h1 h2 hno
    simp only [main_setup, h1, h2, or_self, if_false]
    cases hl : load_cascade sys path with
    | ok cascade => exact absurd hl (hno cascade)
    | error status => rw [h3 status hl]

/-- Witness of C4 (amended): the five-byte file is loaded as it is. -/
theorem load_cascade_unchecked_witness :
    load_cascade demo_sys "short.bin" = .ok [0, 0, 0, 0, 0] :=
  ((load_cascade_unchecked demo_sys "short.bin").1 [0, 0, 0, 0, 0]).2
    ⟨[0, 0, 0, 0, 0], by rfl, by rfl, by rfl, by rfl⟩


/-! ## Parsing the command line -/

/-- A path buffer is overrun exactly by a converted word of 1024 bytes or more. -/
theorem sscanf_path_eq_none {F : Type} (sys : Sys F) (v buf : String) :
    sscanf_path sys v buf = none ↔
      ∃ w : String, sys.sscanf_s v = some w ∧ ¬ w.utf8ByteSize < 1024 := by
  unfold sscanf_path
  cases sys.sscanf_s v with
  | none => simp
  | some w =>
    by_cases h : w.utf8ByteSize < 1024
    · simp [h]
    · simp only [h, ↓reduceIte, Option.some.injEq, exists_eq_left', not_false_eq_true]

theorem spec_is_flag_iff (a : String) :
    spec_is_flag a = true ↔
      (a = "-u" ∨ a = "--usepyr") ∨ (a = "-n" ∨ a = "--noclustering") ∨
      (a = "-v" ∨ a = "--verbose") := by
  unfold spec_is_flag
  exact decide_eq_true_iff

theorem spec_is_value_option_iff (a : String) :
    spec_is_value_option a = true ↔
      (a = "-i" ∨ a = "--input") ∨ (a = "-o" ∨ a = "--output") ∨ (a = "-m" ∨ a = "--minsize") ∨
      (a = "-M" ∨ a = "--maxsize") ∨ (a = "-a" ∨ a = "--angle") ∨ (a = "-c" ∨ a = "--scalefactor") ∨
      (a = "-t" ∨ a = "--stridefactor") ∨ (a = "-q" ∨ a = "--qthreshold") := by
  unfold spec_is_value_option
  exact decide_eq_true_iff

/-- No option that takes a value is a switch. -/
theorem value_option_not_flag (a : String) (h : spec_is_value_option a = true) :
    spec_is_flag a = false := by
  rw [spec_is_value_option_iff] at h
  rcases h with (h | h) | (h | h) | (h | h) | (h | h) | (h | h) | (h | h) | (h | h) | (h | h) <;>
    subst h <;> decide

theorem scan_flag (a : String) (rest : List String) (h : spec_is_flag a = true) :
    spec_scan_fails (a :: rest) = spec_scan_fails rest := by
  rw [spec_scan_fails.eq_def]
  simp only [h, ↓reduceIte]

theorem scan_value (a v : String) (tail : List String) (h : spec_is_value_option a = true) :
    spec_scan_fails (a :: v :: tail) = spec_scan_fails tail := by
  rw [spec_scan_fails.eq_def]
  simp only [value_option_not_flag a h, h, ↓reduceIte, Bool.false_eq_true]

theorem scan_value_last (a : String) (h : spec_is_value_option a = true) :
    spec_scan_fails [a] = true := by
  rw [spec_scan_fails.eq_def]
  simp only [value_option_not_flag a h, h, ↓reduceIte, Bool.false_eq_true]

theorem scan_invalid (a : String) (rest : List String) (h1 : spec_is_flag a = false)
    (h2 : spec_is_value_option a = false) : spec_scan_fails (a :: rest) = true := by
  rw [spec_scan_fails.eq_def]
  simp only [h1, h2, ↓reduceIte, Bool.false_eq_true]

/-- One turn of the option loop: it goes on with a shorter argument list and
one parameter changed, or it returns 1, or it overruns a path buffer; the
left-to-right scan moves in step. -/
theorem parse_args_step {F : Type} (sys : Sys F) (a : String) (rest : List String)
    (st0 : Setup F) :
    (∃ (tail : List String) (st1 : Setup F),
      (tail = rest ∨ ∃ v : String, rest = v :: tail) ∧
      parse_args sys (a :: rest) st0 = parse_args sys tail st1 ∧
      spec_scan_fails (a :: rest) = spec_scan_fails tail ∧
      st1.cascade = st0.cascade ∧
      (¬ (a = "-u" ∨ a = "--usepyr") → st1.usepyr = st0.usepyr) ∧
      (¬ (a = "-i" ∨ a = "--input") → st1.input = st0.input) ∧
      (¬ (a = "-o" ∨ a = "--output") → st1.output = st0.output) ∧
      (¬ (a = "-m" ∨ a = "--minsize") → st1.minsize = st0.minsize) ∧
      (¬ (a = "-M" ∨ a = "--maxsize") → st1.maxsize = st0.maxsize) ∧
      (¬ (a = "-a" ∨ a = "--angle") → st1.angle = st0.angle) ∧
      (¬ (a = "-c" ∨ a = "--scalefactor") → st1.scalefactor = st0.scalefactor) ∧
      (¬ (a = "-t" ∨ a = "--stridefactor") → st1.stridefactor = st0.stridefactor) ∧
      (¬ (a = "-q" ∨ a = "--qthreshold") → st1.qthreshold = st0.qthreshold) ∧
      (¬ (a = "-n" ∨ a = "--noclustering") → st1.noclustering = st0.noclustering) ∧
      (¬ (a = "-v" ∨ a = "--verbose") → st1.verbose = st0.verbose)) ∨
    (parse_args sys (a :: rest) st0 = .error (.exit 1) ∧ spec_scan_fails (a :: rest) = true) ∨
    (parse_args sys (a :: rest) st0 = .error .overrun ∧
      ∃ (v w : String) (tail : List String),
        rest = v :: tail ∧ sys.sscanf_s v = some w ∧ ¬ w.utf8ByteSize < 1024) := by
  by_cases h1 : a = "-u" ∨ a = "--usepyr"
  · have hk : spec_is_flag a = true := (spec_is_flag_iff a).2 (Or.inl h1)
    refine Or.inl ⟨rest, { st0 with usepyr := 1 }, Or.inl rfl, ?_, scan_flag a rest hk,
      rfl, fun h => absurd h1 h, fun _ => rfl, fun _ => rfl, fun _ => rfl, fun _ => rfl, fun _ => rfl, fun _ => rfl, fun _ => rfl, fun _ => rfl, fun _ => rfl, fun _ => rfl⟩
    rw [parse_args.eq_def]
    simp only [h1, ↓reduceIte]
  by_cases h2 : a = "-i" ∨ a = "--input"
  · have hk : spec_is_value_option a = true := (spec_is_value_option_iff a).2 (Or.inl h2)
    cases rest with
    | nil =>
      refine Or.inr (Or.inl ⟨?_, scan_value_last a hk⟩)
      rw [parse_args.eq_def]
      simp only [h1, h2, ↓reduceIte]
    | cons v tail =>
      cases hs : sscanf_path sys v st0.input with
      | none =>
        obtain ⟨w, hw, hlen⟩ := (sscanf_path_eq_none sys v st0.input).1 hs
        refine Or.inr (Or.inr ⟨?_, v, w, tail, rfl, hw, hlen⟩)
        rw [parse_args.eq_def]
        simp only [h1, h2, hs, ↓reduceIte]
      | some s =>
        refine Or.inl ⟨tail, { st0 with input := s }, Or.inr ⟨v, rfl⟩, ?_,
          scan_value a v tail hk,
          rfl, fun _ => rfl, fun h => absurd h2 h, fun _ => rfl, fun _ => rfl, fun _ => rfl, fun _ => rfl, fun _ => rfl, fun _ => rfl, fun _ => rfl, fun _ => rfl, fun _ => rfl⟩
        rw [parse_args.eq_def]
        simp only [h1, h2, hs, ↓reduceIte]
  by_cases h3 : a = "-o" ∨ a = "--output"
  · have hk : spec_is_value_option a = true := (spec_is_value_option_iff a).2 (Or.inr (Or.inl h3))
    cases rest with
    | nil =>
      refine Or.inr (Or.inl ⟨?_, scan_value_last a hk⟩)
      rw [parse_args.eq_def]
      simp only [h1, h2, h3, ↓reduceIte]
    | cons v tail =>
      cases hs : sscanf_path sys v st0.output with
      | none =>
        obtain ⟨w, hw, hlen⟩ := (sscanf_path_eq_none sys v st0.output).1 hs
        refine Or.inr (Or.inr ⟨?_, v, w, tail, rfl, hw, hlen⟩)
        rw [parse_args.eq_def]
        simp only [h1, h2, h3, hs, ↓reduceIte]
      | some s =>
        refine Or.inl ⟨tail, { st0 with output := s }, Or.inr ⟨v, rfl⟩, ?_,
          scan_value a v tail hk,
          rfl, fun _ => rfl, fun _ => rfl, fun h => absurd h3 h, fun _ => rfl, fun _ => rfl, fun _ => rfl, fun _ => rfl, fun _ => rfl, fun _ => rfl, fun _ => rfl, fun _ => rfl⟩
        rw [parse_args.eq_def]
        simp only [h1, h2, h3, hs, ↓reduceIte]
  by_cases h4 : a = "-m" ∨ a = "--minsize"
  · have hk : spec_is_value_option a = true := (spec_is_value_option_iff a).2 (Or.inr (Or.inr (Or.inl h4)))
    cases rest with
    | nil =>
      refine Or.inr (Or.inl ⟨?_, scan_value_last a hk⟩)
      rw [parse_args.eq_def]
      simp only [h1, h2, h3, h4, ↓reduceIte]
    | cons v tail =>
      refine Or.inl ⟨tail, { st0 with minsize := (sys.sscanf_d v).getD st0.minsize }, Or.inr ⟨v, rfl⟩, ?_,
        scan_value a v tail hk,
        rfl, fun _ => rfl, fun _ => rfl, fun _ => rfl, fun h => absurd h4 h, fun _ => rfl, fun _ => rfl, fun _ => rfl, fun _ => rfl, fun _ => rfl, fun _ => rfl, fun _ => rfl⟩
      rw [parse_args.eq_def]
      simp only [h1, h2, h3, h4, ↓reduceIte]
  by_cases h5 : a = "-M" ∨ a = "--maxsize"
  · have hk : spec_is_value_option a = true := (spec_is_value_option_iff a).2 (Or.inr (Or.inr (Or.inr (Or.inl h5))))
    cases rest with
    | nil =>
      refine Or.inr (Or.inl ⟨?_, scan_value_last a hk⟩)
      rw [parse_args.eq_def]
      simp only [h1, h2, h3, h4, h5, ↓reduceIte]
    | cons v tail =>
      refine Or.inl ⟨tail, { st0 with maxsize := (sys.sscanf_d v).getD st0.maxsize }, Or.inr ⟨v, rfl⟩, ?_,
        scan_value a v tail hk,
        rfl, fun _ => rfl, fun _ => rfl, fun _ => rfl, fun _ => rfl, fun h => absurd h5 h, fun _ => rfl, fun _ => rfl, fun _ => rfl, fun _ => rfl, fun _ => rfl, fun _ => rfl⟩
      rw [parse_args.eq_def]
      simp only [h1, h2, h3, h4, h5, ↓reduceIte]
  by_cases h6 : a = "-a" ∨ a = "--angle"
  · have hk : spec_is_value_option a = true := (spec_is_value_option_iff a).2 (Or.inr (Or.inr (Or.inr (Or.inr (Or.inl h6)))))
    cases rest with
    | nil =>
      refine Or.inr (Or.inl ⟨?_, scan_value_last a hk⟩)
      rw [parse_args.eq_def]
      simp only [h1, h2, h3, h4, h5, h6, ↓reduceIte]
    | cons v tail =>
      refine Or.inl ⟨tail, { st0 with angle := (sys.sscanf_f v).getD st0.angle }, Or.inr ⟨v, rfl⟩, ?_,
        scan_value a v tail hk,
        rfl, fun _ => rfl, fun _ => rfl, fun _ => rfl, fun _ => rfl, fun _ => rfl, fun h => absurd h6 h, fun _ => rfl, fun _ => rfl, fun _ => rfl, fun _ => rfl, fun _ => rfl⟩
      rw [parse_args.eq_def]
      simp only [h1, h2, h3, h4, h5, h6, ↓reduceIte]
  by_cases h7 : a = "-c" ∨ a = "--scalefactor"
  · have hk : spec_is_value_option a = true := (spec_is_value_option_iff a).2 (Or.inr (Or.inr (Or.inr (Or.inr (Or.inr (Or.inl h7))))))
    cases rest with
    | nil =>
      refine Or.inr (Or.inl ⟨?_, scan_value_last a hk⟩)
      rw [parse_args.eq_def]
      simp only [h1, h2, h3, h4, h5, h6, h7, ↓reduceIte]
    | cons v tail =>
      refine Or.inl ⟨tail, { st0 with scalefactor := (sys.sscanf_f v).getD st0.scalefactor }, Or.inr ⟨v, rfl⟩, ?_,
        scan_value a v tail hk,
        rfl, fun _ => rfl, fun _ => rfl, fun _ => rfl, fun _ => rfl, fun _ => rfl, fun _ => rfl, fun h => absurd h7 h, fun _ => rfl, fun _ => rfl, fun _ => rfl, fun _ => rfl⟩
      rw [parse_args.eq_def]
      simp only [h1, h2, h3, h4, h5, h6, h7, ↓reduceIte]
  by_cases h8 : a = "-t" ∨ a = "--stridefactor"
  · have hk : spec_is_value_option a = true := (spec_is_value_option_iff a).2 (Or.inr (Or.inr (Or.inr (Or.inr (Or.inr (Or.inr (Or.inl h8)))))))
    cases rest with
    | nil =>
      refine Or.inr (Or.inl ⟨?_, scan_value_last a hk⟩)
      rw [parse_args.eq_def]
      simp only [h1, h2, h3, h4, h5, h6, h7, h8, ↓reduceIte]
    | cons v tail =>
      refine Or.inl ⟨tail, { st0 with stridefactor := (sys.sscanf_f v).getD st0.stridefactor }, Or.inr ⟨v, rfl⟩, ?_,
        scan_value a v tail hk,
        rfl, fun _ => rfl, fun _ => rfl, fun _ => rfl, fun _ => rfl, fun _ => rfl, fun _ => rfl, fun _ => rfl, fun h => absurd h8 h, fun _ => rfl, fun _ => rfl, fun _ => rfl⟩
      rw [parse_args.eq_def]
      simp only [h1, h2, h3, h4, h5, h6, h7, h8, ↓reduceIte]
  by_cases h9 : a = "-q" ∨ a = "--qthreshold"
  · have hk : spec_is_value_option a = true := (spec_is_value_option_iff a).2 (Or.inr (Or.inr (Or.inr (Or.inr (Or.inr (Or.inr (Or.inr (h9))))))))
    cases rest with
    | nil =>
      refine Or.inr (Or.inl ⟨?_, scan_value_last a hk⟩)
      rw [parse_args.eq_def]
      simp only [h1, h2, h3, h4, h5, h6, h7, h8, h9, ↓reduceIte]
    | cons v tail =>
      refine Or.inl ⟨tail, { st0 with qthreshold := (sys.sscanf_f v).getD st0.qthreshold }, Or.inr ⟨v, rfl⟩, ?_,
        scan_value a v tail hk,
        rfl, fun _ => rfl, fun _ => rfl, fun _ => rfl, fun _ => rfl, fun _ => rfl, fun _ => rfl, fun _ => rfl, fun _ => rfl, fun h => absurd h9 h, fun _ => rfl, fun _ => rfl⟩
      rw [parse_args.eq_def]
      simp only [h1, h2, h3, h4, h5, h6, h7, h8, h9, ↓reduceIte]
  by_cases h10 : a = "-n" ∨ a = "--noclustering"
  · have hk : spec_is_flag a = true := (spec_is_flag_iff a).2 (Or.inr (Or.inl h10))
    refine Or.inl ⟨rest, { st0 with noclustering := 1 }, Or.inl rfl, ?_, scan_flag a rest hk,
      rfl, fun _ => rfl, fun _ => rfl, fun _ => rfl, fun _ => rfl, fun _ => rfl, fun _ => rfl, fun _ => rfl, fun _ => rfl, fun _ => rfl, fun h => absurd h10 h, fun _ => rfl⟩
    rw [parse_args.eq_def]
    simp only [h1, h2, h3, h4, h5, h6, h7, h8, h9, h10, ↓reduceIte]
  by_cases h11 : a = "-v" ∨ a = "--verbose"
  · have hk : spec_is_flag a = true := (spec_is_flag_iff a).2 (Or.inr (Or.inr h11))
    refine Or.inl ⟨rest, { st0 with verbose := 1 }, Or.inl rfl, ?_, scan_flag a rest hk,
      rfl, fun _ => rfl, fun _ => rfl, fun _ => rfl, fun _ => rfl, fun _ => rfl, fun _ => rfl, fun _ => rfl, fun _ => rfl, fun _ => rfl, fun _ => rfl, fun h => absurd h11 h⟩
    rw [parse_args.eq_def]
    simp only [h1, h2, h3, h4, h5, h6, h7, h8, h9, h10, h11, ↓reduceIte]
  have hf : spec_is_flag a = false := by
    rw [← Bool.not_eq_true, spec_is_flag_iff]
    rintro (h | h | h)
    · exact h1 h
    · exact h10 h
    · exact h11 h
  have hv : spec_is_value_option a = false := by
    rw [← Bool.not_eq_true, spec_is_value_option_iff]
    rintro (h | h | h | h | h | h | h | h)
    · exact h2 h
    · exact h3 h
    · exact h4 h
    · exact h5 h
    · exact h6 h
    · exact h7 h
    · exact h8 h
    · exact h9 h
  refine Or.inr (Or.inl ⟨?_, scan_invalid a rest hf hv⟩)
  rw [parse_args.eq_def]
  simp only [h1, h2, h3, h4, h5, h6, h7, h8, h9, h10, h11, ↓reduceIte]

/-- When every converted word fits its buffer, the option loop returns 1 where
the left-to-right scan fails and succeeds where the scan succeeds. -/
theorem parse_args_scan {F : Type} (sys : Sys F) :
    ∀ (n : Nat) (args : List String), args.length ≤ n → words_fit sys args →
      ∀ st0 : Setup F,
        (spec_scan_fails args = true → parse_args sys args st0 = .error (.exit 1)) ∧
        (spec_scan_fails args = false → ∃ st : Setup F, parse_args sys args st0 = .ok st) := by
  intro n
  induction n with
  | zero =>
    intro args hlen _ st0
    have : args = [] := List.length_eq_zero.mp (Nat.le_zero.mp hlen)
    subst this
    exact ⟨fun h => by simp [spec_scan_fails] at h, fun _ => ⟨st0, by simp [parse_args]⟩⟩
  | succ n ih =>
    intro args hlen hfit st0
    cases args with
    | nil => exact ⟨fun h => by simp [spec_scan_fails] at h, fun _ => ⟨st0, by simp [parse_args]⟩⟩
    | cons a rest =>
      rcases parse_args_step sys a rest st0 with
        ⟨tail, st1, htail, hp, hs, -⟩ | ⟨hp, hs⟩ | ⟨-, v, w, tail, hrest, hw, hlen'⟩
      · have hsub : ∀ x ∈ tail, x ∈ a :: rest := by
          rcases htail with rfl | ⟨v, rfl⟩
          · intro x hx; exact List.mem_cons_of_mem _ hx
          · intro x hx; exact List.mem_cons_of_mem _ (List.mem_cons_of_mem _ hx)
        have hl : tail.length ≤ n := by
          rcases htail with rfl | ⟨v, rfl⟩
          · simp only [List.length_cons] at hlen; omega
          · simp only [List.length_cons] at hlen; omega
        have hfit' : words_fit sys tail := fun x hx w hw => hfit x (hsub x hx) w hw
        rw [hp, hs]
        exact ih tail hl hfit' st1
      · rw [hp, hs]
        exact ⟨fun _ => rfl, fun h => by cases h⟩
      · subst hrest
        exact absurd (hfit v (List.mem_cons_of_mem _ (List.mem_cons_self v tail)) w hw) hlen'


/-- The outcome of the option loop when every converted word fits its buffer:
it returns 1 exactly where the left-to-right scan fails, succeeds exactly
where the scan succeeds, and stops in no other way. -/
theorem parse_args_outcome {F : Type} (sys : Sys F) (args : List String) (st0 : Setup F)
    (hfit : words_fit sys args) :
    (parse_args sys args st0 = .error (.exit 1) ↔ spec_scan_fails args = true) ∧
    ((∃ st : Setup F, parse_args sys args st0 = .ok st) ↔ spec_scan_fails args = false) ∧
    (∀ stop : Stop, parse_args sys args st0 = .error stop → stop = .exit 1) := by
  obtain ⟨hf, hs⟩ := parse_args_scan sys args.length args (le_refl _) hfit st0
  refine ⟨?_, ?_, ?_⟩
  · constructor
    · intro h
      cases hb : spec_scan_fails args with
      | true => rfl
      | false =>
        obtain ⟨st, hst⟩ := hs hb
        rw [hst] at h
        cases h
    · exact hf
  · constructor
    · rintro ⟨st, hst⟩
      cases hb : spec_scan_fails args with
      | false => rfl
      | true =>
        rw [hf hb] at hst
        cases hst
    · exact hs
  · intro stop h
    cases hb : spec_scan_fails args with
    | true =>
      rw [hf hb] at h
      cases h
      rfl
    | false =>
      obtain ⟨st, hst⟩ := hs hb
      rw [hst] at h
      cases h

/-- The short and the long spelling of an option act alike. -/
theorem spelling_alike {F : Type} (sys : Sys F) (rest : List String) (st : Setup F) :
    parse_args sys ("-u" :: rest) st = parse_args sys ("--usepyr" :: rest) st ∧
    parse_args sys ("-i" :: rest) st = parse_args sys ("--input" :: rest) st ∧
    parse_args sys ("-o" :: rest) st = parse_args sys ("--output" :: rest) st ∧
    parse_args sys ("-m" :: rest) st = parse_args sys ("--minsize" :: rest) st ∧
    parse_args sys ("-M" :: rest) st = parse_args sys ("--maxsize" :: rest) st ∧
    parse_args sys ("-a" :: rest) st = parse_args sys ("--angle" :: rest) st ∧
    parse_args sys ("-c" :: rest) st = parse_args sys ("--scalefactor" :: rest) st ∧
    parse_args sys ("-t" :: rest) st = parse_args sys ("--stridefactor" :: rest) st ∧
    parse_args sys ("-q" :: rest) st = parse_args sys ("--qthreshold" :: rest) st ∧
    parse_args sys ("-n" :: rest) st = parse_args sys ("--noclustering" :: rest) st ∧
    parse_args sys ("-v" :: rest) st = parse_args sys ("--verbose" :: rest) st := by
  refine ⟨?_, ?_, ?_, ?_, ?_, ?_, ?_, ?_, ?_, ?_, ?_⟩ <;>
    (rw [parse_args.eq_def]; conv_rhs => rw [parse_args.eq_def]) <;> simp

/-- A word of 1024 bytes or more given to `-i` or `-o` overruns the buffer,
whatever follows on the command line. -/
theorem long_path_overrun {F : Type} (sys : Sys F) (a v w : String) (rest : List String)
    (st : Setup F) (ha : (a = "-i" ∨ a = "--input") ∨ (a = "-o" ∨ a = "--output"))
    (hw : sys.sscanf_s v = some w) (hlen : ¬ w.utf8ByteSize < 1024) :
    parse_args sys (a :: v :: rest) st = .error .overrun := by
  have hi : sscanf_path sys v st.input = none :=
    (sscanf_path_eq_none sys v st.input).2 ⟨w, hw, hlen⟩
  have ho : sscanf_path sys v st.output = none :=
    (sscanf_path_eq_none sys v st.output).2 ⟨w, hw, hlen⟩
  rw [parse_args.eq_def]
  rcases ha with (rfl | rfl) | (rfl | rfl) <;> simp [hi, ho]

theorem utf8Len_replicate (n : Nat) : String.utf8Len (List.replicate n 'a') = n := by
  induction n with
  | zero => rfl
  | succ n ih =>
    have h : 'a'.utf8Size = 1 := by decide
    simp [List.replicate_succ, ih, h]

theorem long_word_size : long_word.utf8ByteSize = 1500 := by
  unfold long_word
  rw [String.utf8ByteSize_mk]
  exact utf8Len_replicate 1500

theorem long_word_ne : long_word ≠ "" := by decide

/-- C9 at a failing input: `pico facefinder -i aaa…a -o out.png -u` with a path
of 1500 letters.  The left-to-right scan of the options succeeds (every
argument is an option or the value of one), yet the option loop neither
returns 1 nor succeeds: the `sscanf` of the path writes past the end of
`input[1024]`. -/
theorem long_path_overruns :
    spec_scan_fails ["-i", long_word, "-o", "out.png", "-u"] = false ∧
    parse_args demo_sys ["-i", long_word, "-o", "out.png", "-u"] (set_defaults rat_ops [])
      = .error .overrun ∧
    main_setup rat_ops demo_sys ["pico", "facefinder", "-i", long_word, "-o", "out.png", "-u"]
      = .overrun := by
  refine ⟨by decide, ?_, ?_⟩
  · simp [parse_args, sscanf_path, demo_sys, long_word_size, long_word_ne]
  · simp [main_setup, load_cascade, parse_args, sscanf_path, demo_sys, long_word_size,
      long_word_ne]

end Pico
